import Mathlib

/-!
Formal model of the `custom-memory-allocators` repository.

The repository contains five allocator variants:
* V1 `1. absolutely-naive-allocator/alloc.c` — singly linked list of all
  blocks over `sbrk`, first fit, tail shrink on free;
* V2 `2. implicit-freelist-allocator/alloc.c` — boundary-tagged blocks,
  implicit free list, four-case coalescing;
* V3 `3. explicit-freelist-allocator/alloc.c` — V2 plus an explicit
  doubly linked free list threaded through free payloads and `my_realloc`;
* V4 `4. buddy-allocator/alloc.c` — power-of-two buddy system over a
  fixed 1 MiB arena;
* V5 `5. slab-allocator/alloc.h` — object caches with bitmap slabs on
  top of V4.

Each variant is embedded as executable Lean definitions over an explicit
state.  Machine words are natural numbers; 64-bit stores truncate with
`% 2^64`.  Pointer-typed values are integers (V1–V3, `0` is the null
pointer) or arena offsets wrapped in `Option` (V4, V5, `none` is null).
Fallible operations return `Option`: a `none` result of the outer
`Option` models an access the C code performs outside the valid arena
(undefined behavior), never a null return value of the C function.

The doubly linked structures that the C code threads through raw bytes
(the explicit free list of V3, the per-order free lists of V4, the slab
lists of V5) are represented as Lean lists of the addresses or records
they link, with `insert`/`delete` acting as the C functions do on a well
formed list: insertion at the head, removal of the named node.
-/

/-! ## 64-bit word helpers shared by V2 and V3

The C macros are
`PACK(size, alloc) = (size) | (alloc)`,
`GET_SIZE(p) = GET(p) & ~(DWORD - 1)` and
`GET_ALLOC(p) = GET(p) & 0x1`, all on `uintptr_t` (64 bits, `DWORD = 16`).
-/

def W64 : Nat := 2 ^ 64

def WORD : Nat := 8

def DWORD : Nat := 16

def CHUNKSIZE : Nat := 4096

/-- `PACK(size, alloc)`: bitwise or, as in the C macro. -/
def pack (size alloc : Nat) : Nat := size ||| alloc

/-- `GET_SIZE`: mask out the low four bits of a 64-bit word. -/
def getSizeW (w : Nat) : Nat := w &&& (W64 - 16)

/-- `GET_ALLOC`: the low bit of the word. -/
def getAllocW (w : Nat) : Nat := w &&& 1

lemma getSizeW_dvd (w : Nat) : 16 ∣ getSizeW w := by
  apply Nat.dvd_of_mod_eq_zero
  have h1 := Nat.and_pow_two_sub_one_eq_mod (getSizeW w) 4
  have h2 := Nat.land_assoc w (W64 - 16) (2 ^ 4 - 1)
  have hz : ((W64 - 16 : Nat) &&& (2 ^ 4 - 1)) = 0 := by decide
  unfold getSizeW at *
  rw [h2, hz] at h1
  simp only [Nat.and_zero] at h1
  omega

lemma getSizeW_le (w : Nat) : getSizeW w ≤ w := Nat.and_le_left

lemma getSizeW_mod_sixteen (w : Nat) : getSizeW w % 16 = 0 := by
  have := getSizeW_dvd w
  omega

lemma land_sixteen_identity {s : Nat} (h16 : 16 ∣ s) (hlt : s < W64) :
    s &&& (W64 - 16) = s := by
  have hdecomp : s &&& ((W64 - 16) ||| 15) = (s &&& (W64 - 16)) ||| (s &&& 15) :=
    Nat.and_or_distrib_left s (W64 - 16) 15
  have hmask : ((W64 - 16 : Nat) ||| 15) = W64 - 1 := by decide
  have hall : s &&& (W64 - 1) = s := by
    have := Nat.and_pow_two_sub_one_of_lt_two_pow (n := 64) hlt
    simpa [W64] using this
  have h15 : s &&& 15 = 0 := by
    have h := Nat.and_pow_two_sub_one_eq_mod s 4
    have hm : s % 16 = 0 := by omega
    norm_num at h
    omega
  rw [hmask] at hdecomp
  rw [hall] at hdecomp
  rw [h15] at hdecomp
  simpa using hdecomp.symm

lemma pack_lt {s a : Nat} (hs : s < W64) (ha : a ≤ 1) : pack s a < W64 := by
  have ha64 : a < W64 := lt_of_le_of_lt ha (by norm_num [W64])
  simpa [pack, W64] using Nat.or_lt_two_pow (n := 64) (by simpa [W64] using hs) (by simpa [W64] using ha64)

lemma getSizeW_pack {s a : Nat} (h16 : 16 ∣ s) (hlt : s < W64) (ha : a ≤ 1) :
    getSizeW (pack s a) = s := by
  unfold getSizeW pack
  rw [Nat.land_comm, Nat.and_or_distrib_left, Nat.land_comm _ s,
      land_sixteen_identity h16 hlt]
  have haz : (W64 - 16) &&& a = 0 := by
    interval_cases a <;> decide
  rw [haz]
  simp

lemma getAllocW_pack {s a : Nat} (h16 : 16 ∣ s) (ha : a ≤ 1) :
    getAllocW (pack s a) = a := by
  unfold getAllocW pack
  rw [Nat.land_comm, Nat.and_or_distrib_left]
  have hs1 : (1 : Nat) &&& s = 0 := by
    rw [Nat.land_comm]
    have := Nat.and_one_is_mod s
    omega
  have ha1 : (1 : Nat) &&& a = a := by
    interval_cases a <;> decide
  rw [hs1, ha1]
  simp

/-! ## V1 — `1. absolutely-naive-allocator/alloc.c`

`header_t` is a union padded to 24 bytes (`typedef char ALIGN[24]`), holding
`size`, `free` and `next`.  The allocator keeps a singly linked list of all
blocks (`head`/`tail`); the list is modeled as a `List` in allocation order
(head first), and `next` pointers are implicit in the list order.  `brk` is
the current program break; the model gives `sbrk` an upper `limit` above
which it fails, and below `limit` it always succeeds.
-/

namespace V1

/-- `sizeof(header_t)` — 24 bytes on a 64-bit machine. -/
def HEADER_SIZE : Nat := 24

structure Block where
  addr : Int
  size : Nat
  free : Bool
deriving DecidableEq, Repr

structure State where
  blocks : List Block
  brk : Int
  limit : Int
deriving DecidableEq, Repr

/-- `get_free_block`: first-fit scan of the whole block list. -/
def get_free_block (st : State) (size : Nat) : Option Block :=
  st.blocks.find? (fun b => b.free && decide (size ≤ b.size))

/-- `malloc`: reject size 0; first fit; otherwise `sbrk(size + sizeof(header_t))`
and append the new block to the list. -/
def malloc (st : State) (size : Nat) : Option Int × State :=
  if size = 0 then (none, st)
  else
    match get_free_block st size with
    | some b =>
        (some b.addr,
         { st with blocks :=
             st.blocks.map (fun c => if c.addr = b.addr then { c with free := false } else c) })
    | none =>
        let total : Nat := size + HEADER_SIZE
        if st.brk + (total : Int) > st.limit then (none, st)
        else
          let payload : Int := st.brk + (HEADER_SIZE : Int)
          (some payload,
           { st with
               blocks := st.blocks ++ [{ addr := payload, size := size, free := false }],
               brk := st.brk + (total : Int) })

/-- The argument the C code passes to `sbrk` when shrinking:
`0 - sizeof(header_t) + size`, i.e. `size - 24` as a signed value. -/
def shrinkDelta (size : Nat) : Int := (size : Int) - (HEADER_SIZE : Int)

/-- `free`: no-op on null.  If the block ends at the program break, drop the
list tail and move the break by `shrinkDelta`; otherwise set the free flag.
Freeing a pointer that is not a block address reads unknown memory — `none`. -/
def free (st : State) (p : Int) : Option State :=
  if p = 0 then some st
  else
    match st.blocks.find? (fun b => b.addr = p) with
    | none => none
    | some b =>
        if p + (b.size : Int) = st.brk then
          let newBrk : Int :=
            if st.brk + shrinkDelta b.size ≤ st.limit then st.brk + shrinkDelta b.size
            else st.brk
          some { st with blocks := st.blocks.dropLast, brk := newBrk }
        else
          some { st with blocks :=
            st.blocks.map (fun c => if c.addr = p then { c with free := true } else c) }

end V1

/-! ## V4 — `4. buddy-allocator/alloc.c`

A fixed arena of `PAGE_SIZE * 2^MAX_ORDER` bytes.  Pointers are modeled as
byte offsets from `heap_start`; the null pointer is `Option.none`.  A free
block hosts a `block_t { next, prev, order, is_free }` node in its leading
bytes: the `next`/`prev` links are represented by the per-order lists
(`free_list[k]`, head first) and the `order`/`is_free` fields by a finite
map `meta` from block offset to the last values written there.  Reading
the node of an offset the allocator never wrote (the C code would read
caller bytes) is undefined behavior: `none`.
-/

namespace V4

def MAX_ORDER : Nat := 8

def PAGE_SIZE : Nat := 4096

def RAM_SIZE : Nat := PAGE_SIZE * (1 <<< MAX_ORDER)

structure BMeta where
  order : Nat
  isFree : Bool
deriving DecidableEq, Repr

/-- The block nodes written so far, as a finite map from the block's byte
offset to the node fields.  Every block offset the allocator handles is a
multiple of `PAGE_SIZE`, so the map is keyed by page number, stored as a
16 × 16 table of pages (rows of 16 consecutive pages) to keep lookup cheap. -/
def MetaMap : Type := List (List (Option BMeta))

instance : DecidableEq MetaMap :=
  inferInstanceAs (DecidableEq (List (List (Option BMeta))))

instance : Repr MetaMap :=
  inferInstanceAs (Repr (List (List (Option BMeta))))

structure State where
  freeLists : List (List Nat)
  meta : MetaMap
deriving DecidableEq, Repr

/-- `free_list[k]` (out-of-range orders read as empty). -/
def getList (st : State) (k : Nat) : List Nat := st.freeLists.getD k []

def metaSet (ml : MetaMap) (off : Nat) (m : BMeta) : MetaMap :=
  let p := off / PAGE_SIZE
  ml.set (p / 16) ((ml.getD (p / 16) []).set (p % 16) (some m))

/-- Read the node stored at `off`; `none` when no node was ever written at
that address (the C code would read arbitrary caller bytes). -/
def metaAt (st : State) (off : Nat) : Option BMeta :=
  if off % PAGE_SIZE = 0 then
    let p := off / PAGE_SIZE
    (st.meta.getD (p / 16) []).getD (p % 16) none
  else none

/-- `list_add(block, order)`: set `order`/`is_free = 1` in the block node and
push the block at the front of `free_list[order]`. -/
def list_add (st : State) (block : Nat) (order : Nat) : State :=
  { freeLists := st.freeLists.set order (block :: getList st order),
    meta := metaSet st.meta block ⟨order, true⟩ }

/-- `list_remove(block)`: unlink the block from the list `free_list[block->order]`
it lives on and clear `is_free`.  Reading an unwritten node is undefined. -/
def list_remove (st : State) (block : Nat) : Option State :=
  match metaAt st block with
  | none => none
  | some m =>
      some { freeLists := st.freeLists.set m.order ((getList st m.order).erase block),
             meta := metaSet st.meta block ⟨m.order, false⟩ }

/-- `buddy_init`: the whole arena is one free block of order `MAX_ORDER`
at offset 0. -/
def buddy_init : State :=
  { freeLists := [[], [], [], [], [], [], [], [], [0]],
    meta := (some ⟨MAX_ORDER, true⟩ :: List.replicate 15 none)
            :: List.replicate 15 (List.replicate 16 none) }

/-- The scan `for (curr_order = req_order; curr_order <= MAX_ORDER; curr_order++)`
for the first non-empty free list: the orders `req_order, …, MAX_ORDER`
in that sequence. -/
def findOrder (st : State) (k : Nat) : Option Nat :=
  (List.range' k (MAX_ORDER + 1 - k)).find? (fun j => !(getList st j).isEmpty)

/-- The split loop of `buddy_alloc`: while `curr_order > req_order`, halve the
block and add the upper buddy `block + (PAGE_SIZE << curr_order)` to the
free list one order below. -/
def splitLoop (st : State) (block : Nat) (k req : Nat) : State :=
  match k with
  | 0 => st
  | k1 + 1 =>
      if req < k1 + 1 then
        splitLoop (list_add st (block + (PAGE_SIZE <<< k1)) k1) block k1 req
      else st

/-- `buddy_alloc(req_order)`: find the smallest non-empty order, remove its
head, split down to the requested order, mark the block allocated. -/
def buddy_alloc (st : State) (req : Nat) : Option (Option Nat × State) :=
  match findOrder st req with
  | none => some (none, st)
  | some k =>
      match getList st k with
      | [] => none
      | block :: _ =>
          match list_remove st block with
          | none => none
          | some st1 =>
              let st2 := splitLoop st1 block k req
              some (some block, { st2 with meta := metaSet st2.meta block ⟨req, false⟩ })

/-- The merge loop of `buddy_free`: while below `MAX_ORDER`, look at the buddy
`offset XOR block_size`; stop unless it is a free block of the same order,
else unlink it, keep the lower of the two offsets and go one order up.
Returns the final block offset and order. -/
def mergeLoop : Nat → State → Nat → Nat → Option (State × Nat × Nat)
  | 0, st, block, k => some (st, block, k)
  | fuel + 1, st, block, k =>
      if k < MAX_ORDER then
        let bsize := PAGE_SIZE <<< k
        let boff := block ^^^ bsize
        match metaAt st boff with
        | none => none
        | some bm =>
            if bm.isFree = false ∨ bm.order ≠ k then some (st, block, k)
            else
              match list_remove st boff with
              | none => none
              | some st1 =>
                  let block2 := if boff < block then boff else block
                  match metaAt st1 block2 with
                  | none => none
                  | some m2 =>
                      mergeLoop fuel { st1 with meta := metaSet st1.meta block2 ⟨k + 1, m2.isFree⟩ }
                        block2 (k + 1)
      else some (st, block, k)

/-- `buddy_free(p)`: null-safe; read the order from the block node, coalesce
with free buddies as far as possible, then `list_add` the result. -/
def buddy_free (st : State) (p : Option Nat) : Option State :=
  match p with
  | none => some st
  | some off =>
      match metaAt st off with
      | none => none
      | some m =>
          match mergeLoop (MAX_ORDER - m.order) st off m.order with
          | none => none
          | some (st1, block, k) => some (list_add st1 block k)

end V4

/-! ## V5 — `5. slab-allocator/alloc.h`

A cache of fixed-size objects over the buddy allocator.  `slab_t` records
its page (a buddy offset), a free count and a 32-bit bitmap; the three
singly linked slab lists (`slabs_partial`, `slabs_full`, `slabs_free`) are
Lean lists, head first.  Object pointers are offsets into the buddy arena;
null is `Option.none`.
-/

namespace V5

def PAGE_SIZE : Nat := V4.PAGE_SIZE

structure Slab where
  pageStart : Nat
  freeCount : Int
  bitmap : Nat
deriving DecidableEq, Repr

structure Cache where
  partialSlabs : List Slab
  fullSlabs : List Slab
  freeSlabs : List Slab
  objSize : Nat
  objectsPerSlab : Nat
  name : String
deriving DecidableEq, Repr

/-- A cache together with the buddy allocator state underneath it. -/
structure KState where
  cache : Cache
  buddy : V4.State
deriving DecidableEq, Repr

/-- `kmem_cache_create(name, size)`: `objects_per_slab = PAGE_SIZE / size`,
capped at 32 by the bitmap width. -/
def kmem_cache_create (name : String) (size : Nat) : Cache :=
  let ops := PAGE_SIZE / size
  { partialSlabs := [], fullSlabs := [], freeSlabs := [],
    objSize := size,
    objectsPerSlab := if ops > 32 then 32 else ops,
    name := name }

/-- `slab_create`: take one order-0 page from the buddy allocator; on buddy
failure free the slab bookkeeping and return null. -/
def slab_create (cache : Cache) (bst : V4.State) : Option (Option Slab × V4.State) :=
  match V4.buddy_alloc bst 0 with
  | none => none
  | some (none, bst1) => some (none, bst1)
  | some (some page, bst1) =>
      some (some { pageStart := page, freeCount := (cache.objectsPerSlab : Int), bitmap := 0 },
            bst1)

/-- The slot scan of `kmem_cache_alloc`: the first `i < objects_per_slab`
with bit `i` clear, `none` for the C sentinel `slot == -1`. -/
def findSlot (bitmap : Nat) (ops : Nat) : Option Nat :=
  (List.range ops).find? (fun i => (bitmap >>> i) &&& 1 = 0)

/-- The tail of `kmem_cache_alloc` once a source slab sits at the head of the
partial list (`cache.partialSlabs = slab :: rest`): find the slot, set the
bit, decrement the count, move the slab to `full` when it fills up. -/
def alloc_in (cache : Cache) (bst : V4.State) (slab : Slab) (rest : List Slab) :
    Option Nat × KState :=
  match findSlot slab.bitmap cache.objectsPerSlab with
  | none => (none, ⟨cache, bst⟩)
  | some slot =>
      let slab1 : Slab :=
        { slab with bitmap := slab.bitmap ||| (1 <<< slot), freeCount := slab.freeCount - 1 }
      let objPtr := slab1.pageStart + slot * cache.objSize
      if slab1.freeCount = 0 then
        (some objPtr,
         ⟨{ cache with partialSlabs := rest, fullSlabs := slab1 :: cache.fullSlabs }, bst⟩)
      else
        (some objPtr, ⟨{ cache with partialSlabs := slab1 :: rest }, bst⟩)

/-- `kmem_cache_alloc`: source slab priority partial → free → freshly created
(pushed onto partial), then allocate the lowest clear bit. -/
def kmem_cache_alloc (st : KState) : Option (Option Nat × KState) :=
  match st.cache.partialSlabs with
  | slab :: rest => some (alloc_in st.cache st.buddy slab rest)
  | [] =>
      match st.cache.freeSlabs with
      | slab :: frest =>
          let cache1 :=
            { st.cache with freeSlabs := frest, partialSlabs := slab :: st.cache.partialSlabs }
          some (alloc_in cache1 st.buddy slab [])
      | [] =>
          match slab_create st.cache st.buddy with
          | none => none
          | some (none, bst1) => some (none, ⟨st.cache, bst1⟩)
          | some (some slab, bst1) =>
              let cache1 := { st.cache with partialSlabs := slab :: st.cache.partialSlabs }
              some (alloc_in cache1 bst1 slab [])

/-- Whether `ptr >= slab->page_start && ptr < slab->page_start + PAGE_SIZE`. -/
def containsPtr (s : Slab) (off : Nat) : Bool :=
  decide (s.pageStart ≤ off) && decide (off < s.pageStart + PAGE_SIZE)

/-- `find_slab`: first slab of the list whose page range contains the pointer. -/
def find_slab (off : Nat) (l : List Slab) : Option Slab :=
  l.find? (fun s => containsPtr s off)

/-- Replace the first slab of the list whose page contains `off`. -/
def updateSlab (off : Nat) (s1 : Slab) : List Slab → List Slab
  | [] => []
  | s :: rest => if containsPtr s off then s1 :: rest else s :: updateSlab off s1 rest

/-- Remove the first slab of the list whose page contains `off`. -/
def removeSlab (off : Nat) : List Slab → List Slab
  | [] => []
  | s :: rest => if containsPtr s off then rest else s :: removeSlab off rest

def U32MASK : Nat := 2 ^ 32 - 1

/-- `kmem_cache_free`: null-safe; locate the owning slab on partial then full;
outside both, return silently.  Clear the slot bit, bump the count, and
relink full → partial, or partial → free when the slab empties. -/
def kmem_cache_free (st : KState) (p : Option Nat) : KState :=
  match p with
  | none => st
  | some off =>
      let cache := st.cache
      match find_slab off cache.partialSlabs with
      | some slab =>
          let slot := (off - slab.pageStart) / cache.objSize
          let slab1 : Slab :=
            { slab with bitmap := slab.bitmap &&& (U32MASK ^^^ (1 <<< slot)),
                        freeCount := slab.freeCount + 1 }
          if slab1.freeCount = (cache.objectsPerSlab : Int) then
            ⟨{ cache with partialSlabs := removeSlab off cache.partialSlabs,
                          freeSlabs := slab1 :: cache.freeSlabs }, st.buddy⟩
          else
            ⟨{ cache with partialSlabs := updateSlab off slab1 cache.partialSlabs }, st.buddy⟩
      | none =>
          match find_slab off cache.fullSlabs with
          | none => st
          | some slab =>
              let slot := (off - slab.pageStart) / cache.objSize
              let slab1 : Slab :=
                { slab with bitmap := slab.bitmap &&& (U32MASK ^^^ (1 <<< slot)),
                            freeCount := slab.freeCount + 1 }
              ⟨{ cache with fullSlabs := removeSlab off cache.fullSlabs,
                            partialSlabs := slab1 :: cache.partialSlabs }, st.buddy⟩

/-- Iterate `kmem_cache_alloc`, keeping only the state. -/
def allocSteps : Nat → KState → Option KState
  | 0, st => some st
  | n + 1, st =>
      match kmem_cache_alloc st with
      | none => none
      | some (_, st1) => allocSteps n st1

end V5

/-! ### Concrete buddy runs used by the round-trip scenario -/

namespace V4

/-- Allocate `n` order-0 blocks, collecting the returned offsets in
allocation order. -/
def allocRun : Nat → State → Option (List Nat × State)
  | 0, st => some ([], st)
  | n + 1, st =>
      match buddy_alloc st 0 with
      | some (some p, st1) =>
          match allocRun n st1 with
          | some (ps, st2) => some (p :: ps, st2)
          | none => none
      | _ => none

/-- Free the listed blocks in order. -/
def freeRun : List Nat → State → Option State
  | [], st => some st
  | p :: ps, st =>
      match buddy_free st (some p) with
      | none => none
      | some st1 => freeRun ps st1

end V4

/-! ### Packaged concrete scenarios -/

namespace V4

/-- Allocate 256 order-0 blocks, record whether a 257th succeeds, free all
256 in allocation order, and report the final free lists. -/
def roundTripOutcome : Option (Option (Option Nat) × List (List Nat)) :=
  (allocRun 256 buddy_init).bind fun pr =>
    (freeRun pr.1 pr.2).map fun st2 =>
      ((buddy_alloc pr.2 0).map Prod.fst, (List.range 9).map (getList st2))

/-- `a = buddy_alloc(0); b = buddy_alloc(0); buddy_free(b); buddy_free(a)`,
reporting the final free lists. -/
def twoBlockOutcome : Option (List (List Nat)) := do
  let (a, st1) ← buddy_alloc buddy_init 0
  let (b, st2) ← buddy_alloc st1 0
  let aa ← a
  let bb ← b
  let st3 ← buddy_free st2 (some bb)
  let st4 ← buddy_free st3 (some aa)
  pure ((List.range 9).map (getList st4))

end V4

namespace V5

/-- A fresh cache of 64-byte objects over a fresh buddy arena. -/
def cache64 : KState := ⟨kmem_cache_create "object64" 64, V4.buddy_init⟩

/-- Partial-list and full-list lengths after `n` allocations from `cache64`. -/
def listLengthsAfter (n : Nat) : Option (Nat × Nat) :=
  (allocSteps n cache64).map fun s => (s.cache.partialSlabs.length, s.cache.fullSlabs.length)

end V5

/-! ## Theorems for the claims settled by V1, V4 and V5 alone -/

set_option maxRecDepth 100000

/-- Claim C3 (code bug, evaluated at the failing input): in V1, freeing the
block at the arena tail does remove it from the block list, but the break
moves by `size - sizeof(header_t)` — the C code passes
`0 - sizeof(header_t) + size` to `sbrk`, an unsigned expression equal to
`size - 24` as a signed word — instead of shrinking by the footprint
`size + sizeof(header_t)`.  At a tail block of size 32 ending at break 56
the break becomes 64 (it grows by 8) where the claim requires 0; a non-tail
free only sets the free flag. -/
theorem c3_v1_tail_shrink_bug :
    (V1.free ⟨[⟨24, 32, false⟩], 56, 1000⟩ 24 = some ⟨[], 64, 1000⟩ ∧ (64 : Int) ≠ 56 - (32 + 24))
    ∧ V1.free ⟨[⟨24, 32, false⟩, ⟨80, 32, false⟩], 112, 1000⟩ 24
      = some ⟨[⟨24, 32, true⟩, ⟨80, 32, false⟩], 112, 1000⟩ := by
  refine ⟨⟨?_, by decide⟩, ?_⟩ <;> decide

/-- Claim C4, counterexample: with `obj_size = 64` a slab holds
`min(4096 / 64, 32) = 32` objects, not 64, and after 64 consecutive
allocations on a fresh cache the full list holds two slabs, not one. -/
theorem c4_slab_counterexample :
    ((V5.kmem_cache_create "object64" 64).objectsPerSlab = 32 ∧ 32 ≠ 64)
    ∧ V5.listLengthsAfter 64 = some (0, 2) := by
  refine ⟨⟨by decide, by decide⟩, by decide⟩

/-- Claim C4 as amended: for `obj_size = 64` a slab holds 32 objects; after
32 consecutive allocations on a fresh cache the partial list is empty and
the full list holds exactly one slab, and the 33rd allocation creates a
second slab which is placed on the partial list. -/
theorem c4_slab_fill_overflow :
    (V5.kmem_cache_create "object64" 64).objectsPerSlab = 32
    ∧ V5.listLengthsAfter 32 = some (0, 1)
    ∧ V5.listLengthsAfter 33 = some (1, 1) := by
  refine ⟨by decide, by decide, by decide⟩

/-- Claim C8: from a fresh buddy arena, 256 order-0 allocations succeed, a
257th returns null (exhaustion), and freeing all 256 blocks restores
`free_list[MAX_ORDER]` to the single block spanning the arena; likewise
the two-allocation scenario freed in reverse order. -/
theorem c8_buddy_round_trip :
    V4.roundTripOutcome = some (some none, [[], [], [], [], [], [], [], [], [0]])
    ∧ V4.twoBlockOutcome = some [[], [], [], [], [], [], [], [], [0]] :=
  ⟨rfl, rfl⟩

/-- Claim C10: `kmem_cache_free` with a pointer lying in no slab of the
cache's partial or full lists returns with the cache, slab lists, bitmaps
and free counts untouched. -/
theorem c10_slab_free_foreign_pointer (st : V5.KState) (off : Nat)
    (hp : ∀ s ∈ st.cache.partialSlabs, ¬(s.pageStart ≤ off ∧ off < s.pageStart + V5.PAGE_SIZE))
    (hf : ∀ s ∈ st.cache.fullSlabs, ¬(s.pageStart ≤ off ∧ off < s.pageStart + V5.PAGE_SIZE)) :
    V5.kmem_cache_free st (some off) = st := by
  have hps : V5.find_slab off st.cache.partialSlabs = none := by
    rw [V5.find_slab, List.find?_eq_none]
    intro s hs
    have := hp s hs
    simp [V5.containsPtr]
    intro h1
    by_contra h2
    exact this ⟨h1, by omega⟩
  have hfs : V5.find_slab off st.cache.fullSlabs = none := by
    rw [V5.find_slab, List.find?_eq_none]
    intro s hs
    have := hf s hs
    simp [V5.containsPtr]
    intro h1
    by_contra h2
    exact this ⟨h1, by omega⟩
  rw [V5.kmem_cache_free]
  rw [hps, hfs]

/-- Witness for C10 at a concrete cache and pointer. -/
theorem c10_slab_free_foreign_pointer_witness :
    V5.kmem_cache_free ⟨⟨[⟨0, 30, 3⟩], [], [], 64, 32, "object64"⟩, V4.buddy_init⟩ (some 99999)
    = ⟨⟨[⟨0, 30, 3⟩], [], [], 64, 32, "object64"⟩, V4.buddy_init⟩ :=
  c10_slab_free_foreign_pointer _ 99999 (by decide) (by decide)

/-! ## V2 — `2. implicit-freelist-allocator/alloc.c`

The heap is a 64-bit word memory over integer byte addresses, written at
multiples of `WORD`.  `lo` is the initial program break (where `mminit`
lays the prologue), `brk` the current break, `limit` the break ceiling
above which `sbrk` fails.  Reads and writes outside `[lo, brk)` are the
C code touching memory it does not own: they yield `none` (undefined
behavior).  `init` models `heap_list_p != 0` (lazy initialization).
-/

namespace V2

structure Heap where
  mem : Int → Nat
  lo : Int
  brk : Int
  limit : Int
  heapListP : Int
  init : Bool

/-- `GET(p)`: read the 64-bit word at `p`, valid only inside the arena. -/
def readW (st : Heap) (a : Int) : Option Nat :=
  if st.lo ≤ a ∧ a + 8 ≤ st.brk then some (st.mem a) else none

/-- `PUT(p, val)`: store a 64-bit word (truncated) at `p`, valid only inside
the arena. -/
def putW (st : Heap) (a : Int) (v : Nat) : Option Heap :=
  if st.lo ≤ a ∧ a + 8 ≤ st.brk then
    some { st with mem := fun x => if x = a then v % W64 else st.mem x }
  else none

/-- `coalesce(bp)`: boundary-tag coalescing, four cases on the allocation
bits of the previous block's footer and the next block's header.  Each
`GET`/`PUT` of the C macros appears in source order, re-reading a header
when the macro expansion does. -/
def coalesce (st : Heap) (bp : Int) : Option (Int × Heap) := do
  let wpsz ← readW st (bp - 16)
  let pv := bp - (getSizeW wpsz : Int)
  let wph ← readW st (pv - 8)
  let wpf ← readW st (pv + (getSizeW wph : Int) - 16)
  let prev_alloc := getAllocW wpf
  let whd ← readW st (bp - 8)
  let nx := bp + (getSizeW whd : Int)
  let wnh ← readW st (nx - 8)
  let next_alloc := getAllocW wnh
  let size := getSizeW whd
  if prev_alloc ≠ 0 ∧ next_alloc ≠ 0 then
    pure (bp, st)
  else if prev_alloc ≠ 0 ∧ next_alloc = 0 then
    let size2 := size + getSizeW wnh
    let st1 ← putW st (bp - 8) (pack size2 0)
    let wh2 ← readW st1 (bp - 8)
    let st2 ← putW st1 (bp + (getSizeW wh2 : Int) - 16) (pack size2 0)
    pure (bp, st2)
  else if prev_alloc = 0 ∧ next_alloc ≠ 0 then
    let size2 := size + getSizeW wpf
    let st1 ← putW st (bp + (size : Int) - 16) (pack size2 0)
    let wpsz2 ← readW st1 (bp - 16)
    let pv2 := bp - (getSizeW wpsz2 : Int)
    let st2 ← putW st1 (pv2 - 8) (pack size2 0)
    let wpsz3 ← readW st2 (bp - 16)
    pure (bp - (getSizeW wpsz3 : Int), st2)
  else
    let size2 := size + getSizeW wpf + getSizeW wnh
    let st1 ← putW st (pv - 8) (pack size2 0)
    let whd2 ← readW st1 (bp - 8)
    let nx2 := bp + (getSizeW whd2 : Int)
    let wnh2 ← readW st1 (nx2 - 8)
    let st2 ← putW st1 (nx2 + (getSizeW wnh2 : Int) - 16) (pack size2 0)
    let wpsz3 ← readW st2 (bp - 16)
    pure (bp - (getSizeW wpsz3 : Int), st2)

/-- `extend_heap(words)`: round up to an even word count, advance the break,
write the new free block's header and footer and a fresh epilogue, then
coalesce.  A failing `sbrk` returns null with the heap untouched. -/
def extend_heap (st : Heap) (words : Nat) : Option (Option Int × Heap) :=
  let size : Nat := if words % 2 = 1 then (words + 1) * WORD else words * WORD
  if st.brk + (size : Int) > st.limit then some (none, st)
  else do
    let bp := st.brk
    let st0 : Heap := { st with brk := st.brk + (size : Int) }
    let st1 ← putW st0 (bp - 8) (pack size 0)
    let wh1 ← readW st1 (bp - 8)
    let st2 ← putW st1 (bp + (getSizeW wh1 : Int) - 16) (pack size 0)
    let wh2 ← readW st2 (bp - 8)
    let st3 ← putW st2 (bp + (getSizeW wh2 : Int) - 8) (pack 0 1)
    let (bp2, st4) ← coalesce st3 bp
    pure (some bp2, st4)

/-- `mminit()`: four words of prologue/epilogue, then one `CHUNKSIZE`
extension.  `none` covers both the C error return `-1` and invalid
accesses. -/
def mminit (st : Heap) : Option Heap :=
  if st.brk + 32 > st.limit then none
  else do
    let hlp := st.brk
    let st0 : Heap := { st with brk := st.brk + 32 }
    let st1 ← putW st0 hlp 0
    let st2 ← putW st1 (hlp + 8) (pack DWORD 1)
    let st3 ← putW st2 (hlp + 16) (pack DWORD 1)
    let st4 ← putW st3 (hlp + 24) (pack 0 1)
    let st5 : Heap := { st4 with heapListP := hlp + 16, init := true }
    match extend_heap st5 (CHUNKSIZE / WORD) with
    | none => none
    | some (none, _) => none
    | some (some _, st6) => some st6

/-- `find_fit(size)`: linear first-fit walk from `heap_list_p` while the
header size is positive.  The walk is driven by a fuel bound strictly
larger than the number of blocks a heap of this size can hold. -/
def find_fit (st : Heap) (asize : Nat) : Nat → Int → Option (Option Int)
  | 0, _ => none
  | fuel + 1, bp => do
      let wh ← readW st (bp - 8)
      if getSizeW wh > 0 then
        if getAllocW wh = 0 ∧ asize ≤ getSizeW wh then pure (some bp)
        else find_fit st asize fuel (bp + (getSizeW wh : Int))
      else pure none

/-- `place(bp, size)`: split when the remainder reaches the minimum block
size `2*DWORD`, else consume the whole block.  `(asize - size)` is a
`size_t` difference, modeled with its 64-bit wraparound. -/
def place (st : Heap) (bp : Int) (size : Nat) : Option Heap := do
  let wh ← readW st (bp - 8)
  let bsize := getSizeW wh
  let diff := (bsize + W64 - size) % W64
  if 2 * DWORD ≤ diff then do
    let st1 ← putW st (bp - 8) (pack size 1)
    let wh1 ← readW st1 (bp - 8)
    let st2 ← putW st1 (bp + (getSizeW wh1 : Int) - 16) (pack size 1)
    let wh2 ← readW st2 (bp - 8)
    let nx := bp + (getSizeW wh2 : Int)
    let st3 ← putW st2 (nx - 8) (pack diff 0)
    let wh3 ← readW st3 (nx - 8)
    let st4 ← putW st3 (nx + (getSizeW wh3 : Int) - 16) (pack diff 0)
    pure st4
  else do
    let st1 ← putW st (bp - 8) (pack bsize 1)
    let wh1 ← readW st1 (bp - 8)
    let st2 ← putW st1 (bp + (getSizeW wh1 : Int) - 16) (pack bsize 1)
    pure st2

/-- The adjusted block size of `my_malloc`: minimum `2*DWORD`, else the
payload rounded up with header and footer added,
`DWORD * ((size + DWORD + (DWORD - 1)) / DWORD)`. -/
def asizeOf (size : Nat) : Nat :=
  if size ≤ DWORD then 2 * DWORD
  else DWORD * ((size + DWORD + (DWORD - 1)) / DWORD)

/-- The search-and-place core of `my_malloc`, after the adjusted size is
computed: first fit, else extend by `max(asize, CHUNKSIZE)` and place. -/
def malloc_with (st : Heap) (asize : Nat) : Option (Option Int × Heap) :=
  match find_fit st asize ((st.brk - st.lo).toNat + 1) st.heapListP with
  | none => none
  | some (some bp) => (place st bp asize).map (fun st1 => (some bp, st1))
  | some none =>
      let extension := max asize CHUNKSIZE
      match extend_heap st (extension / WORD) with
      | none => none
      | some (none, st1) => some (none, st1)
      | some (some bp, st1) => (place st1 bp asize).map (fun st2 => (some bp, st2))

/-- `my_malloc(size)`: lazy `mminit`, null on `size == 0`, then search and
place with the adjusted size. -/
def my_malloc (st : Heap) (size : Nat) : Option (Option Int × Heap) :=
  match (if st.init then some st else mminit st) with
  | none => none
  | some st0 =>
      if size = 0 then some (none, st0)
      else malloc_with st0 (asizeOf size)

/-- `my_free(bp)`: clear the allocation bit in header and footer, then
coalesce.  There is no null check: `my_free(0)` reads the word at
address `-8`. -/
def my_free (st : Heap) (bp : Int) : Option Heap := do
  let wh ← readW st (bp - 8)
  let size := getSizeW wh
  let st1 ← putW st (bp - 8) (pack size 0)
  let wh1 ← readW st1 (bp - 8)
  let st2 ← putW st1 (bp + (getSizeW wh1 : Int) - 16) (pack size 0)
  let (_, st3) ← coalesce st2 bp
  pure st3

end V2

/-! ## V3 — `3. explicit-freelist-allocator/alloc.c`

The same boundary-tag heap as V2, plus
* `freeList` — the explicit doubly linked free list the C code threads
  through the first two payload words of free blocks (`GET_PRV_PTR`,
  `GET_NXT_PTR`), represented as the list of payload addresses from
  `free_list_p` onward.  `insert_node` puts the new head in front;
  `delete_node` removes the named node, as the C pointer surgery does on
  a well formed list;
* `data` — payload bytes as the caller sees them, read and written by
  `memcpy` in `my_realloc`.
-/

namespace V3

structure Heap where
  mem : Int → Nat
  data : Int → Nat
  lo : Int
  brk : Int
  limit : Int
  heapListP : Int
  freeList : List Int
  init : Bool

def readW (st : Heap) (a : Int) : Option Nat :=
  if st.lo ≤ a ∧ a + 8 ≤ st.brk then some (st.mem a) else none

def putW (st : Heap) (a : Int) (v : Nat) : Option Heap :=
  if st.lo ≤ a ∧ a + 8 ≤ st.brk then
    some { st with mem := fun x => if x = a then v % W64 else st.mem x }
  else none

/-- `insert_node(bp)`: LIFO insertion at the head of the explicit list. -/
def insert_node (st : Heap) (bp : Int) : Heap :=
  { st with freeList := bp :: st.freeList }

/-- `delete_node(bp)`: unlink `bp` from the doubly linked list. -/
def delete_node (st : Heap) (bp : Int) : Heap :=
  { st with freeList := st.freeList.erase bp }

/-- `memcpy(dst, src, n)` on payload bytes. -/
def memcpy (st : Heap) (dst src : Int) (n : Nat) : Heap :=
  { st with data := fun a => if dst ≤ a ∧ a < dst + (n : Int) then st.data (src + (a - dst)) else st.data a }

/-- `coalesce(bp)`: as in V2, but each merged-away free neighbor is removed
from the explicit list before its tags are rewritten, and the merged
block is inserted exactly once (case 3 keeps the previous block that is
already on the list). -/
def coalesce (st : Heap) (bp : Int) : Option (Int × Heap) := do
  let wpsz ← readW st (bp - 16)
  let pv := bp - (getSizeW wpsz : Int)
  let wph ← readW st (pv - 8)
  let wpf ← readW st (pv + (getSizeW wph : Int) - 16)
  let prev_alloc := getAllocW wpf
  let whd ← readW st (bp - 8)
  let nx := bp + (getSizeW whd : Int)
  let wnh ← readW st (nx - 8)
  let next_alloc := getAllocW wnh
  let size := getSizeW whd
  if prev_alloc ≠ 0 ∧ next_alloc ≠ 0 then
    pure (bp, insert_node st bp)
  else if prev_alloc ≠ 0 ∧ next_alloc = 0 then
    let size2 := size + getSizeW wnh
    let st0 := delete_node st nx
    let st1 ← putW st0 (bp - 8) (pack size2 0)
    let wh2 ← readW st1 (bp - 8)
    let st2 ← putW st1 (bp + (getSizeW wh2 : Int) - 16) (pack size2 0)
    pure (bp, insert_node st2 bp)
  else if prev_alloc = 0 ∧ next_alloc ≠ 0 then
    let size2 := size + getSizeW wpf
    let st1 ← putW st (bp + (size : Int) - 16) (pack size2 0)
    let wpsz2 ← readW st1 (bp - 16)
    let pv2 := bp - (getSizeW wpsz2 : Int)
    let st2 ← putW st1 (pv2 - 8) (pack size2 0)
    let wpsz3 ← readW st2 (bp - 16)
    pure (bp - (getSizeW wpsz3 : Int), st2)
  else
    let size2 := size + getSizeW wpf + getSizeW wnh
    let st0 := delete_node st nx
    let st1 ← putW st0 (pv - 8) (pack size2 0)
    let whd2 ← readW st1 (bp - 8)
    let nx2 := bp + (getSizeW whd2 : Int)
    let wnh2 ← readW st1 (nx2 - 8)
    let st2 ← putW st1 (nx2 + (getSizeW wnh2 : Int) - 16) (pack size2 0)
    let wpsz3 ← readW st2 (bp - 16)
    pure (bp - (getSizeW wpsz3 : Int), st2)

def extend_heap (st : Heap) (words : Nat) : Option (Option Int × Heap) :=
  let size : Nat := if words % 2 = 1 then (words + 1) * WORD else words * WORD
  if st.brk + (size : Int) > st.limit then some (none, st)
  else do
    let bp := st.brk
    let st0 : Heap := { st with brk := st.brk + (size : Int) }
    let st1 ← putW st0 (bp - 8) (pack size 0)
    let wh1 ← readW st1 (bp - 8)
    let st2 ← putW st1 (bp + (getSizeW wh1 : Int) - 16) (pack size 0)
    let wh2 ← readW st2 (bp - 8)
    let st3 ← putW st2 (bp + (getSizeW wh2 : Int) - 8) (pack 0 1)
    let (bp2, st4) ← coalesce st3 bp
    pure (some bp2, st4)

/-- `mminit()`: as in V2, and `free_list_p = NULL`. -/
def mminit (st : Heap) : Option Heap :=
  if st.brk + 32 > st.limit then none
  else do
    let hlp := st.brk
    let st0 : Heap := { st with brk := st.brk + 32, freeList := [] }
    let st1 ← putW st0 hlp 0
    let st2 ← putW st1 (hlp + 8) (pack DWORD 1)
    let st3 ← putW st2 (hlp + 16) (pack DWORD 1)
    let st4 ← putW st3 (hlp + 24) (pack 0 1)
    let st5 : Heap := { st4 with heapListP := hlp + 16, init := true }
    match extend_heap st5 (CHUNKSIZE / WORD) with
    | none => none
    | some (none, _) => none
    | some (some _, st6) => some st6

/-- `find_fit(size)`: first fit over the explicit free list only. -/
def find_fit (st : Heap) (asize : Nat) : List Int → Option (Option Int)
  | [] => some none
  | bp :: rest => do
      let wh ← readW st (bp - 8)
      if asize ≤ getSizeW wh then pure (some bp)
      else find_fit st asize rest

/-- `place(bp, size)`: always `delete_node(bp)` first; split and insert the
remainder when it reaches `2*DWORD`. -/
def place (st : Heap) (bp : Int) (size : Nat) : Option Heap := do
  let wh ← readW st (bp - 8)
  let bsize := getSizeW wh
  let diff := (bsize + W64 - size) % W64
  if 2 * DWORD ≤ diff then do
    let st0 := delete_node st bp
    let st1 ← putW st0 (bp - 8) (pack size 1)
    let wh1 ← readW st1 (bp - 8)
    let st2 ← putW st1 (bp + (getSizeW wh1 : Int) - 16) (pack size 1)
    let wh2 ← readW st2 (bp - 8)
    let nx := bp + (getSizeW wh2 : Int)
    let st3 ← putW st2 (nx - 8) (pack diff 0)
    let wh3 ← readW st3 (nx - 8)
    let st4 ← putW st3 (nx + (getSizeW wh3 : Int) - 16) (pack diff 0)
    pure (insert_node st4 nx)
  else do
    let st0 := delete_node st bp
    let st1 ← putW st0 (bp - 8) (pack bsize 1)
    let wh1 ← readW st1 (bp - 8)
    let st2 ← putW st1 (bp + (getSizeW wh1 : Int) - 16) (pack bsize 1)
    pure st2

def asizeOf (size : Nat) : Nat :=
  if size ≤ DWORD then 2 * DWORD
  else DWORD * ((size + DWORD + (DWORD - 1)) / DWORD)

def malloc_with (st : Heap) (asize : Nat) : Option (Option Int × Heap) :=
  match find_fit st asize st.freeList with
  | none => none
  | some (some bp) => (place st bp asize).map (fun st1 => (some bp, st1))
  | some none =>
      let extension := max asize CHUNKSIZE
      match extend_heap st (extension / WORD) with
      | none => none
      | some (none, st1) => some (none, st1)
      | some (some bp, st1) => (place st1 bp asize).map (fun st2 => (some bp, st2))

def my_malloc (st : Heap) (size : Nat) : Option (Option Int × Heap) :=
  match (if st.init then some st else mminit st) with
  | none => none
  | some st0 =>
      if size = 0 then some (none, st0)
      else malloc_with st0 (asizeOf size)

/-- `my_free(bp)`: clear the tags, coalesce.  No null check: `my_free(0)`
reads the word at address `-8`. -/
def my_free (st : Heap) (bp : Int) : Option Heap := do
  let wh ← readW st (bp - 8)
  let size := getSizeW wh
  let st1 ← putW st (bp - 8) (pack size 0)
  let wh1 ← readW st1 (bp - 8)
  let st2 ← putW st1 (bp + (getSizeW wh1 : Int) - 16) (pack size 0)
  let (_, st3) ← coalesce st2 bp
  pure st3

/-- `my_realloc(ptr, size)`: free on `size == 0`; malloc on null `ptr`;
shrink in place (splitting and coalescing the tail when it is large
enough); grow in place into a free next block; otherwise allocate, copy
`min(size, old_size - DWORD)` payload bytes, free the old block. -/
def my_realloc (st : Heap) (ptr : Int) (size : Nat) : Option (Option Int × Heap) :=
  if size = 0 then (my_free st ptr).map (fun st1 => (none, st1))
  else if ptr = 0 then my_malloc st size
  else do
    let asize := asizeOf size
    let wh ← readW st (ptr - 8)
    let old_size := getSizeW wh
    if asize ≤ old_size then
      if 2 * DWORD ≤ old_size - asize then do
        let st1 ← putW st (ptr - 8) (pack asize 1)
        let wh1 ← readW st1 (ptr - 8)
        let st2 ← putW st1 (ptr + (getSizeW wh1 : Int) - 16) (pack asize 1)
        let wh2 ← readW st2 (ptr - 8)
        let np := ptr + (getSizeW wh2 : Int)
        let st3 ← putW st2 (np - 8) (pack (old_size - asize) 0)
        let wh3 ← readW st3 (np - 8)
        let st4 ← putW st3 (np + (getSizeW wh3 : Int) - 16) (pack (old_size - asize) 0)
        let (_, st5) ← coalesce st4 np
        pure (some ptr, st5)
      else pure (some ptr, st)
    else do
      let wnh ← readW st (ptr + (getSizeW wh : Int) - 8)
      let next_alloc := getAllocW wnh
      let next_size := getSizeW wnh
      let total_avail := old_size + next_size
      if next_alloc = 0 ∧ asize ≤ total_avail then do
        let st1 := delete_node st (ptr + (getSizeW wh : Int))
        if 2 * DWORD ≤ total_avail - asize then do
          let st2 ← putW st1 (ptr - 8) (pack asize 1)
          let wh1 ← readW st2 (ptr - 8)
          let st3 ← putW st2 (ptr + (getSizeW wh1 : Int) - 16) (pack asize 1)
          let wh2 ← readW st3 (ptr - 8)
          let rp := ptr + (getSizeW wh2 : Int)
          let st4 ← putW st3 (rp - 8) (pack (total_avail - asize) 0)
          let wh3 ← readW st4 (rp - 8)
          let st5 ← putW st4 (rp + (getSizeW wh3 : Int) - 16) (pack (total_avail - asize) 0)
          pure (some ptr, insert_node st5 rp)
        else do
          let st2 ← putW st1 (ptr - 8) (pack total_avail 1)
          let wh1 ← readW st2 (ptr - 8)
          let st3 ← putW st2 (ptr + (getSizeW wh1 : Int) - 16) (pack total_avail 1)
          pure (some ptr, st3)
      else
        match my_malloc st size with
        | none => none
        | some (none, st1) => some (none, st1)
        | some (some newp, st1) =>
            let c0 := (old_size + W64 - DWORD) % W64
            let copy_size := if size < c0 then size else c0
            let st2 := memcpy st1 newp ptr copy_size
            match my_free st2 ptr with
            | none => none
            | some st3 => some (some newp, st3)

end V3

/-! ### Concrete V2/V3 heaps for witnesses and counterexamples -/

/-- A V2 heap with the arena at addresses `[0, 100)` and the initialized
flag set; only the fields a hypothesis mentions matter. -/
def v2heap : V2.Heap :=
  { mem := fun _ => 0, lo := 0, brk := 100, limit := 100, heapListP := 16, init := true }

/-- The V3 heap freshly produced by `mminit` from an empty address space
(break 0, limit 100000). -/
def fresh3 : V3.Heap :=
  { mem := fun _ => 0, data := fun _ => 0, lo := 0, brk := 0, limit := 100000,
    heapListP := 0, freeList := [], init := false }

def v3heap : V3.Heap :=
  match V3.mminit fresh3 with
  | some s => s
  | none => fresh3

set_option maxHeartbeats 1000000

/-- Claim C1, counterexample: V2 and V3 `my_free` have no null check: on an
arena of non-negative addresses, `my_free(NULL)` dereferences
`HDRP(NULL) = -8` (the model returns `none`, an out-of-arena access) —
it is not a silent no-op that leaves the state unchanged. -/
theorem c1_null_free_counterexample :
    V2.my_free v2heap 0 = none ∧ V2.my_free v2heap 0 ≠ some v2heap
    ∧ V3.my_free v3heap 0 = none ∧ V3.my_free v3heap 0 ≠ some v3heap := by
  have h2 : V2.my_free v2heap 0 = none := rfl
  have h3 : V3.my_free v3heap 0 = none := rfl
  refine ⟨h2, by simp [h2], h3, by simp [h3]⟩

/-- Claim C1 as amended: `free(null)` is a silent no-op in V1 `free`,
V4 `buddy_free` and V5 `kmem_cache_free`; V2 and V3 `my_free` do not
check for null and read the word 8 bytes below the null pointer
(undefined behavior on any arena of non-negative addresses). -/
theorem c1_null_free (st1 : V1.State) (st4 : V4.State) (st5 : V5.KState)
    (st2 : V2.Heap) (st3 : V3.Heap) (h2 : 0 ≤ st2.lo) (h3 : 0 ≤ st3.lo) :
    V1.free st1 0 = some st1
    ∧ V4.buddy_free st4 none = some st4
    ∧ V5.kmem_cache_free st5 none = st5
    ∧ V2.my_free st2 0 = none
    ∧ V3.my_free st3 0 = none := by
  refine ⟨rfl, rfl, rfl, ?_, ?_⟩
  · rw [V2.my_free]
    have : V2.readW st2 (0 - 8) = none := by
      rw [V2.readW, if_neg]
      omega
    rw [this]
    rfl
  · rw [V3.my_free]
    have : V3.readW st3 (0 - 8) = none := by
      rw [V3.readW, if_neg]
      omega
    rw [this]
    rfl

/-- Witness for C1 at concrete states of each variant. -/
theorem c1_null_free_witness :
    V1.free ⟨[], 0, 0⟩ 0 = some ⟨[], 0, 0⟩
    ∧ V4.buddy_free V4.buddy_init none = some V4.buddy_init
    ∧ V5.kmem_cache_free ⟨V5.kmem_cache_create "w" 64, V4.buddy_init⟩ none
      = ⟨V5.kmem_cache_create "w" 64, V4.buddy_init⟩
    ∧ V2.my_free v2heap 0 = none
    ∧ V3.my_free v3heap 0 = none :=
  c1_null_free ⟨[], 0, 0⟩ V4.buddy_init ⟨V5.kmem_cache_create "w" 64, V4.buddy_init⟩
    v2heap v3heap (by decide) (le_of_eq (show (0 : Int) = v3heap.lo from rfl))

/-- Claim C6: in V2 and V3, `my_malloc` returns null for `size == 0`; for
`0 < size ≤ DWORD` it searches and places with adjusted size `2*DWORD`;
for `size > DWORD` the adjusted size is the payload rounded up to a
multiple of 16 plus 16 bytes for header and footer,
`DWORD * ((size + 15) / 16) + DWORD`. -/
theorem c6_adjusted_block_size :
    (∀ st : V2.Heap, st.init = true → V2.my_malloc st 0 = some (none, st))
    ∧ (∀ st : V3.Heap, st.init = true → V3.my_malloc st 0 = some (none, st))
    ∧ (∀ (st : V2.Heap) (size : Nat), st.init = true → size ≠ 0 →
        V2.my_malloc st size = V2.malloc_with st (V2.asizeOf size))
    ∧ (∀ (st : V3.Heap) (size : Nat), st.init = true → size ≠ 0 →
        V3.my_malloc st size = V3.malloc_with st (V3.asizeOf size))
    ∧ (∀ size : Nat, 0 < size → size ≤ DWORD →
        V2.asizeOf size = 2 * DWORD ∧ V3.asizeOf size = 2 * DWORD)
    ∧ (∀ size : Nat, DWORD < size →
        V2.asizeOf size = DWORD * ((size + 15) / 16) + DWORD
        ∧ V3.asizeOf size = DWORD * ((size + 15) / 16) + DWORD) := by
  refine ⟨?_, ?_, ?_, ?_, ?_, ?_⟩
  · intro st h
    rw [V2.my_malloc, h]
    rfl
  · intro st h
    rw [V3.my_malloc, h]
    rfl
  · intro st size h hs
    rw [V2.my_malloc, h]
    simp [hs]
  · intro st size h hs
    rw [V3.my_malloc, h]
    simp [hs]
  · intro size h1 h2
    simp only [DWORD] at h2
    constructor
    · simp only [V2.asizeOf, DWORD]
      rw [if_pos h2]
    · simp only [V3.asizeOf, DWORD]
      rw [if_pos h2]
  · intro size h
    simp only [DWORD] at h
    constructor
    · simp only [V2.asizeOf, DWORD]
      rw [if_neg (by omega)]
      omega
    · simp only [V3.asizeOf, DWORD]
      rw [if_neg (by omega)]
      omega

/-- Witness for C6 at the concrete heaps and sizes 0, 8, 100. -/
theorem c6_adjusted_block_size_witness :
    V2.my_malloc v2heap 0 = some (none, v2heap)
    ∧ V3.my_malloc v3heap 0 = some (none, v3heap)
    ∧ V2.my_malloc v2heap 8 = V2.malloc_with v2heap (V2.asizeOf 8)
    ∧ V3.my_malloc v3heap 8 = V3.malloc_with v3heap (V3.asizeOf 8)
    ∧ (V2.asizeOf 8 = 2 * DWORD ∧ V3.asizeOf 8 = 2 * DWORD)
    ∧ (V2.asizeOf 100 = DWORD * ((100 + 15) / 16) + DWORD
       ∧ V3.asizeOf 100 = DWORD * ((100 + 15) / 16) + DWORD) :=
  ⟨c6_adjusted_block_size.1 v2heap rfl,
   c6_adjusted_block_size.2.1 v3heap (show v3heap.init = true from rfl),
   c6_adjusted_block_size.2.2.1 v2heap 8 rfl (by decide),
   c6_adjusted_block_size.2.2.2.1 v3heap 8 (show v3heap.init = true from rfl) (by decide),
   c6_adjusted_block_size.2.2.2.2.1 8 (by decide) (by decide),
   c6_adjusted_block_size.2.2.2.2.2 100 (by decide)⟩

/-! ### Null returns leave the state unchanged (helper lemmas) -/

lemma v2_extend_heap_ret_none (st : V2.Heap) (w : Nat) (st1 : V2.Heap)
    (h : V2.extend_heap st w = some (none, st1)) : st1 = st := by
  rw [V2.extend_heap] at h
  split at h <;>
  · split at h
    · simp only [Option.some.injEq, Prod.mk.injEq, true_and] at h
      exact h.symm
    · exfalso
      simp only [Option.bind_eq_bind, Option.bind_eq_some] at h
      obtain ⟨a1, -, a2, -, a3, -, a4, -, a5, -, ⟨bp2, st4⟩, -, h⟩ := h
      simp at h

lemma v2_malloc_with_ret_none (st : V2.Heap) (a : Nat) (st1 : V2.Heap)
    (h : V2.malloc_with st a = some (none, st1)) : st1 = st := by
  rw [V2.malloc_with] at h
  split at h
  · exact Option.noConfusion h
  · exfalso
    simp only [Option.map_eq_some'] at h
    obtain ⟨s, -, h⟩ := h
    simp at h
  · simp only [] at h
    split at h
    · exact Option.noConfusion h
    · rename_i heq
      simp only [Option.some.injEq, Prod.mk.injEq, true_and] at h
      rw [h] at heq
      exact v2_extend_heap_ret_none _ _ _ heq
    · exfalso
      simp only [Option.map_eq_some'] at h
      obtain ⟨s, -, h⟩ := h
      simp at h

lemma v2_my_malloc_ret_none (st : V2.Heap) (size : Nat) (st1 : V2.Heap)
    (hinit : st.init = true)
    (h : V2.my_malloc st size = some (none, st1)) : st1 = st := by
  rw [V2.my_malloc, hinit] at h
  simp only [if_true] at h
  split at h
  · simp only [Option.some.injEq, Prod.mk.injEq, true_and] at h
    exact h.symm
  · exact v2_malloc_with_ret_none _ _ _ h

lemma v3_extend_heap_ret_none (st : V3.Heap) (w : Nat) (st1 : V3.Heap)
    (h : V3.extend_heap st w = some (none, st1)) : st1 = st := by
  rw [V3.extend_heap] at h
  split at h <;>
  · split at h
    · simp only [Option.some.injEq, Prod.mk.injEq, true_and] at h
      exact h.symm
    · exfalso
      simp only [Option.bind_eq_bind, Option.bind_eq_some] at h
      obtain ⟨a1, -, a2, -, a3, -, a4, -, a5, -, ⟨bp2, st4⟩, -, h⟩ := h
      simp at h

lemma v3_malloc_with_ret_none (st : V3.Heap) (a : Nat) (st1 : V3.Heap)
    (h : V3.malloc_with st a = some (none, st1)) : st1 = st := by
  rw [V3.malloc_with] at h
  split at h
  · exact Option.noConfusion h
  · exfalso
    simp only [Option.map_eq_some'] at h
    obtain ⟨s, -, h⟩ := h
    simp at h
  · simp only [] at h
    split at h
    · exact Option.noConfusion h
    · rename_i heq
      simp only [Option.some.injEq, Prod.mk.injEq, true_and] at h
      rw [h] at heq
      exact v3_extend_heap_ret_none _ _ _ heq
    · exfalso
      simp only [Option.map_eq_some'] at h
      obtain ⟨s, -, h⟩ := h
      simp at h

lemma v3_my_malloc_ret_none (st : V3.Heap) (size : Nat) (st1 : V3.Heap)
    (hinit : st.init = true)
    (h : V3.my_malloc st size = some (none, st1)) : st1 = st := by
  rw [V3.my_malloc, hinit] at h
  simp only [if_true] at h
  split at h
  · simp only [Option.some.injEq, Prod.mk.injEq, true_and] at h
    exact h.symm
  · exact v3_malloc_with_ret_none _ _ _ h

lemma v3_my_realloc_ret_none (st : V3.Heap) (p : Int) (size : Nat) (st1 : V3.Heap)
    (hinit : st.init = true) (hsz : size ≠ 0)
    (h : V3.my_realloc st p size = some (none, st1)) : st1 = st := by
  rw [V3.my_realloc, if_neg hsz] at h
  split at h
  · exact v3_my_malloc_ret_none _ _ _ hinit h
  · rw [Option.bind_eq_bind, Option.bind_eq_some] at h
    obtain ⟨wh, -, h⟩ := h
    simp only [] at h
    by_cases hc1 : V3.asizeOf size ≤ getSizeW wh
    · rw [if_pos hc1] at h
      by_cases hc2 : 2 * DWORD ≤ getSizeW wh - V3.asizeOf size
      · rw [if_pos hc2] at h
        exfalso
        simp only [Option.bind_eq_bind, Option.bind_eq_some] at h
        obtain ⟨a1, -, a2, -, a3, -, a4, -, a5, -, a6, -, h⟩ := h
        simp at h
      · rw [if_neg hc2] at h
        exfalso
        simp at h
    · rw [if_neg hc1] at h
      rw [Option.bind_eq_bind, Option.bind_eq_some] at h
      obtain ⟨wnh, -, h⟩ := h
      by_cases hc3 : getAllocW wnh = 0 ∧ V3.asizeOf size ≤ getSizeW wh + getSizeW wnh
      · rw [if_pos hc3] at h
        by_cases hc4 : 2 * DWORD ≤ getSizeW wh + getSizeW wnh - V3.asizeOf size
        · rw [if_pos hc4] at h
          exfalso
          simp only [Option.bind_eq_bind, Option.bind_eq_some] at h
          obtain ⟨a1, -, a2, -, a3, -, a4, -, a5, -, h⟩ := h
          simp at h
        · rw [if_neg hc4] at h
          exfalso
          simp only [Option.bind_eq_bind, Option.bind_eq_some] at h
          obtain ⟨a1, -, a2, -, a3, -, h⟩ := h
          simp at h
      · rw [if_neg hc3] at h
        split at h
        · exact Option.noConfusion h
        · rename_i heq
          simp only [Option.some.injEq, Prod.mk.injEq, true_and] at h
          rw [h] at heq
          exact v3_my_malloc_ret_none _ _ _ hinit heq
        · split at h
          · exact Option.noConfusion h
          · exfalso
            simp at h

lemma v4_buddy_alloc_ret_none (st : V4.State) (req : Nat) (st1 : V4.State)
    (h : V4.buddy_alloc st req = some (none, st1)) : st1 = st := by
  rw [V4.buddy_alloc] at h
  split at h
  · simp only [Option.some.injEq, Prod.mk.injEq, true_and] at h
    exact h.symm
  · split at h
    · exact Option.noConfusion h
    · split at h
      · exact Option.noConfusion h
      · exfalso
        simp at h

lemma v5_slab_create_ret_none (c : V5.Cache) (b : V4.State) (b1 : V4.State)
    (h : V5.slab_create c b = some (none, b1)) : b1 = b := by
  rw [V5.slab_create] at h
  split at h
  · exact Option.noConfusion h
  · rename_i heq
    simp only [Option.some.injEq, Prod.mk.injEq, true_and] at h
    rw [h] at heq
    exact v4_buddy_alloc_ret_none _ _ _ heq
  · exfalso
    simp at h

lemma v5_slab_create_bitmap (c : V5.Cache) (b : V4.State) (slab : V5.Slab) (b1 : V4.State)
    (h : V5.slab_create c b = some (some slab, b1)) : slab.bitmap = 0 := by
  rw [V5.slab_create] at h
  split at h
  · exact Option.noConfusion h
  · exfalso
    simp at h
  · simp only [Option.some.injEq, Prod.mk.injEq] at h
    rw [← h.1]

lemma v5_findSlot_isSome {bm ops : Nat} (i : Nat) (hi : i < ops)
    (hbit : (bm >>> i) &&& 1 = 0) : (V5.findSlot bm ops).isSome := by
  rw [V5.findSlot, List.find?_isSome]
  exact ⟨i, List.mem_range.2 hi, by simp [hbit]⟩

lemma v5_alloc_in_fst (cache : V5.Cache) (bst : V4.State) (slab : V5.Slab) (rest : List V5.Slab)
    (h : (V5.findSlot slab.bitmap cache.objectsPerSlab).isSome) :
    (V5.alloc_in cache bst slab rest).1.isSome := by
  rcases hfs : V5.findSlot slab.bitmap cache.objectsPerSlab with _ | slot
  · rw [hfs] at h
    simp at h
  · rw [V5.alloc_in, hfs]
    split
    · rename_i heq
      exact Option.noConfusion heq
    · rename_i k heq
      injection heq with hk
      subst hk
      simp only []
      split <;> simp

lemma v5_kmem_alloc_ret_none (st : V5.KState) (st1 : V5.KState)
    (hops : 1 ≤ st.cache.objectsPerSlab)
    (hpart : ∀ s ∈ st.cache.partialSlabs,
      ∃ i, i < st.cache.objectsPerSlab ∧ (s.bitmap >>> i) &&& 1 = 0)
    (hfree : ∀ s ∈ st.cache.freeSlabs, s.bitmap = 0)
    (h : V5.kmem_cache_alloc st = some (none, st1)) : st1 = st := by
  rw [V5.kmem_cache_alloc] at h
  split at h
  · rename_i slab rest heq
    exfalso
    have hmem : slab ∈ st.cache.partialSlabs := by
      rw [heq]
      exact List.mem_cons_self _ _
    obtain ⟨i, hi, hbit⟩ := hpart slab hmem
    have hsome := v5_alloc_in_fst st.cache st.buddy slab rest (v5_findSlot_isSome i hi hbit)
    injection h with h2
    rw [h2] at hsome
    simp at hsome
  · split at h
    · rename_i hp slab frest heq
      exfalso
      have hmem : slab ∈ st.cache.freeSlabs := by
        rw [heq]
        exact List.mem_cons_self _ _
      have hbm := hfree slab hmem
      have hsome := v5_alloc_in_fst
        { st.cache with freeSlabs := frest, partialSlabs := slab :: st.cache.partialSlabs }
        st.buddy slab []
        (v5_findSlot_isSome 0 hops (by rw [hbm]; decide))
      injection h with h2
      rw [h2] at hsome
      simp at hsome
    · split at h
      · exact Option.noConfusion h
      · rename_i heq
        simp only [Option.some.injEq, Prod.mk.injEq, true_and] at h
        have hb := v5_slab_create_ret_none _ _ _ heq
        rw [← h, hb]
      · rename_i slab bst1 heq
        exfalso
        have hbm := v5_slab_create_bitmap _ _ _ _ heq
        have hsome := v5_alloc_in_fst
          { st.cache with partialSlabs := slab :: st.cache.partialSlabs }
          bst1 slab []
          (v5_findSlot_isSome 0 hops (by rw [hbm]; decide))
        injection h with h2
        rw [h2] at hsome
        simp at hsome

/-! ### Concrete states for the C5 scenarios -/

/-- An uninitialized V2 heap (break and base 0). -/
def fresh2 : V2.Heap :=
  { mem := fun _ => 0, lo := 0, brk := 0, limit := 100000, heapListP := 0, init := false }

/-- The V3 heap after `my_malloc(64)` on the freshly initialized heap:
block 32 (size 80) allocated, remainder 112 (size 4048) free. -/
def v3heapA : V3.Heap :=
  match V3.my_malloc v3heap 64 with
  | some (_, s) => s
  | none => v3heap

/-- A cache of 8192-byte objects (`objects_per_slab = 4096 / 8192 = 0`). -/
def bigK : V5.KState := ⟨V5.kmem_cache_create "big" 8192, V4.buddy_init⟩

/-- A buddy state with no free blocks at all. -/
def emptyBuddy : V4.State := { freeLists := [], meta := [] }

def noRoomK : V5.KState := ⟨V5.kmem_cache_create "w" 64, emptyBuddy⟩

/-- Claim C5, counterexample: three null returns that do change the
allocator state.  (1) On a cache with `obj_size = 8192 > PAGE_SIZE`,
`kmem_cache_alloc` returns null but pushes a fresh zero-capacity slab onto
the partial list (and consumes a buddy page).  (2) `my_realloc(p, 0)`
returns null after freeing `p` (the free list changes).  (3) the first
`my_malloc(0)` returns null after lazily initializing the heap. -/
theorem c5_null_state_counterexample :
    ((V5.kmem_cache_alloc bigK).map (fun r => (r.1, r.2.cache.partialSlabs.length)) = some (none, 1)
      ∧ bigK.cache.partialSlabs.length = 0)
    ∧ ((V3.my_realloc v3heapA 32 0).map (fun r => (r.1, r.2.freeList)) = some (none, [32])
      ∧ v3heapA.freeList = [112])
    ∧ ((V2.my_malloc fresh2 0).map (fun r => (r.1, r.2.init)) = some (none, true)
      ∧ fresh2.init = false) :=
  ⟨⟨rfl, rfl⟩, ⟨rfl, rfl⟩, ⟨rfl, rfl⟩⟩

/-- Claim C5 as amended: a null return from `my_malloc` (initialized heap),
`my_realloc` (initialized heap, `size > 0`), `buddy_alloc`, or
`kmem_cache_alloc` (on a cache with at least one object per slab whose
partial slabs have a clear bit in range and whose free slabs have empty
bitmaps) leaves the allocator state exactly as it was at entry.  The
inputs excluded here change state while returning null: see the
counterexample (V5 `obj_size > PAGE_SIZE`, `my_realloc(p, 0)`, lazy
initialization). -/
theorem c5_null_leaves_state_unchanged :
    (∀ (st : V2.Heap) (size : Nat) (st1 : V2.Heap), st.init = true →
        V2.my_malloc st size = some (none, st1) → st1 = st)
    ∧ (∀ (st : V3.Heap) (size : Nat) (st1 : V3.Heap), st.init = true →
        V3.my_malloc st size = some (none, st1) → st1 = st)
    ∧ (∀ (st : V3.Heap) (p : Int) (size : Nat) (st1 : V3.Heap), st.init = true → size ≠ 0 →
        V3.my_realloc st p size = some (none, st1) → st1 = st)
    ∧ (∀ (st : V4.State) (req : Nat) (st1 : V4.State),
        V4.buddy_alloc st req = some (none, st1) → st1 = st)
    ∧ (∀ (st st1 : V5.KState), 1 ≤ st.cache.objectsPerSlab →
        (∀ s ∈ st.cache.partialSlabs,
          ∃ i, i < st.cache.objectsPerSlab ∧ (s.bitmap >>> i) &&& 1 = 0) →
        (∀ s ∈ st.cache.freeSlabs, s.bitmap = 0) →
        V5.kmem_cache_alloc st = some (none, st1) → st1 = st) :=
  ⟨fun st size st1 h1 h2 => v2_my_malloc_ret_none st size st1 h1 h2,
   fun st size st1 h1 h2 => v3_my_malloc_ret_none st size st1 h1 h2,
   fun st p size st1 h1 h2 h3 => v3_my_realloc_ret_none st p size st1 h1 h2 h3,
   fun st req st1 h => v4_buddy_alloc_ret_none st req st1 h,
   fun st st1 h1 h2 h3 h4 => v5_kmem_alloc_ret_none st st1 h1 h2 h3 h4⟩

/-- Witness for C5: concrete null returns on exhausted arenas for every
entry point of the amended claim. -/
theorem c5_null_leaves_state_unchanged_witness :
    v2heap = v2heap ∧ v3heap = v3heap ∧ v3heapA = v3heapA
    ∧ emptyBuddy = emptyBuddy ∧ noRoomK = noRoomK :=
  ⟨c5_null_leaves_state_unchanged.1 v2heap 50 v2heap rfl rfl,
   c5_null_leaves_state_unchanged.2.1 v3heap 200000 v3heap rfl rfl,
   c5_null_leaves_state_unchanged.2.2.1 v3heapA 32 200000 v3heapA rfl (by decide) rfl,
   c5_null_leaves_state_unchanged.2.2.2.1 emptyBuddy 0 emptyBuddy rfl,
   c5_null_leaves_state_unchanged.2.2.2.2 noRoomK noRoomK (by decide) (by simp [noRoomK, V5.kmem_cache_create]) (by simp [noRoomK, V5.kmem_cache_create]) rfl⟩

/-! ### Pointwise facts about V3 reads and writes -/

lemma v3_readW_some {st : V3.Heap} {a : Int} {w : Nat}
    (h : V3.readW st a = some w) :
    st.mem a = w ∧ st.lo ≤ a ∧ a + 8 ≤ st.brk := by
  rw [V3.readW] at h
  split at h
  · rename_i hr
    injection h with h2
    exact ⟨h2, hr.1, hr.2⟩
  · exact Option.noConfusion h

lemma v3_putW_fields {st : V3.Heap} {a : Int} {v : Nat} {st1 : V3.Heap}
    (h : V3.putW st a v = some st1) :
    st1.lo = st.lo ∧ st1.brk = st.brk ∧ st1.limit = st.limit
    ∧ st1.heapListP = st.heapListP ∧ st1.freeList = st.freeList
    ∧ st1.init = st.init ∧ st1.data = st.data := by
  rw [V3.putW] at h
  split at h
  · cases h
    exact ⟨rfl, rfl, rfl, rfl, rfl, rfl, rfl⟩
  · exact Option.noConfusion h

lemma v3_putW_mem_ne {st : V3.Heap} {a : Int} {v : Nat} {st1 : V3.Heap}
    (h : V3.putW st a v = some st1) (b : Int) (hb : b ≠ a) :
    st1.mem b = st.mem b := by
  rw [V3.putW] at h
  split at h
  · cases h
    simp [hb]
  · exact Option.noConfusion h

/-- Claim C7: for a free block `bp` (header marked free, not yet on the
explicit list) in a heap whose free list is duplicate-free and contains
each free neighbor, `coalesce(bp)` removes the merged-away next block from
the explicit free list, and the block it returns appears on the list
exactly once afterwards — in particular, when the previous block survives
the merge (cases 3 and 4), the returned block is that previous block and
it is not inserted a second time, and `bp` itself is not on the list. -/
theorem c7_coalesce_single_insertion (st : V3.Heap) (bp bp2 : Int) (st2 : V3.Heap)
    (wpsz wph wpf whd wnh : Nat)
    (h1 : V3.readW st (bp - 16) = some wpsz)
    (h2 : V3.readW st (bp - (getSizeW wpsz : Int) - 8) = some wph)
    (h3 : V3.readW st (bp - (getSizeW wpsz : Int) + (getSizeW wph : Int) - 16) = some wpf)
    (h4 : V3.readW st (bp - 8) = some whd)
    (h5 : V3.readW st (bp + (getSizeW whd : Int) - 8) = some wnh)
    (hpsz : 0 < getSizeW wpsz)
    (hsz : 0 < getSizeW whd)
    (hbp : bp ∉ st.freeList)
    (hnd : st.freeList.Nodup)
    (hprev : getAllocW wpf = 0 → bp - (getSizeW wpsz : Int) ∈ st.freeList)
    (hnext : getAllocW wnh = 0 → bp + (getSizeW whd : Int) ∈ st.freeList)
    (hrun : V3.coalesce st bp = some (bp2, st2)) :
    st2.freeList.count bp2 = 1
    ∧ (getAllocW wnh = 0 → bp + (getSizeW whd : Int) ∉ st2.freeList)
    ∧ (getAllocW wpf = 0 → bp2 = bp - (getSizeW wpsz : Int) ∧ bp ∉ st2.freeList) := by
  have hpsz16 : 16 ≤ getSizeW wpsz := by
    have := getSizeW_dvd wpsz
    omega
  have hsz16 : 16 ≤ getSizeW whd := by
    have := getSizeW_dvd whd
    omega
  rw [V3.coalesce] at hrun
  simp only [h1, h2, h3, h4, h5, Option.bind_eq_bind, Option.some_bind] at hrun
  by_cases hpa : getAllocW wpf = 0 <;> by_cases hna : getAllocW wnh = 0
  · -- case 4: both neighbors free
    rw [if_neg (by simp [hpa, hna]), if_neg (by simp [hpa, hna]),
        if_neg (by simp [hpa, hna])] at hrun
    simp only [Option.bind_eq_bind, Option.bind_eq_some] at hrun
    obtain ⟨a1, e1, w2, e2, w3, e3, a2, e4, w4, e5, hfin⟩ := hrun
    have hd1 : (V3.delete_node st (bp + (getSizeW whd : Int))).mem = st.mem := rfl
    have hd2 : (V3.delete_node st (bp + (getSizeW whd : Int))).freeList
        = st.freeList.erase (bp + (getSizeW whd : Int)) := rfl
    have hw2 : w2 = whd := by
      have hm := v3_putW_mem_ne e1 (bp - 8) (by omega)
      have hr := v3_readW_some e2
      have hb := v3_readW_some h4
      rw [hr.1.symm, hm, hd1, hb.1]
    rw [hw2] at e3 e4
    have hw3 : w3 = wnh := by
      have hm := v3_putW_mem_ne e1 (bp + (getSizeW whd : Int) - 8) (by omega)
      have hr := v3_readW_some e3
      have hb := v3_readW_some h5
      rw [hr.1.symm, hm, hd1, hb.1]
    rw [hw3] at e4
    have hw4 : w4 = wpsz := by
      have hm2 := v3_putW_mem_ne e4 (bp - 16) (by omega)
      have hm1 := v3_putW_mem_ne e1 (bp - 16) (by omega)
      have hr := v3_readW_some e5
      have hb := v3_readW_some h1
      rw [hr.1.symm, hm2, hm1, hd1, hb.1]
    rw [hw4] at hfin
    simp only [Option.pure_def, Option.some.injEq, Prod.mk.injEq] at hfin
    obtain ⟨hbp2, hst2⟩ := hfin
    have hfl : st2.freeList = st.freeList.erase (bp + (getSizeW whd : Int)) := by
      rw [← hst2, (v3_putW_fields e4).2.2.2.2.1, (v3_putW_fields e1).2.2.2.2.1, hd2]
    have hpvne : bp - (getSizeW wpsz : Int) ≠ bp + (getSizeW whd : Int) := by omega
    refine ⟨?_, ?_, ?_⟩
    · rw [hfl, ← hbp2, List.count_erase_of_ne hpvne]
      exact List.count_eq_one_of_mem hnd (hprev hpa)
    · intro _
      rw [hfl]
      have hc := List.count_erase_self (bp + (getSizeW whd : Int)) st.freeList
      have hone := List.count_eq_one_of_mem hnd (hnext hna)
      intro hmem
      have := List.count_pos_iff.2 hmem
      omega
    · intro _
      refine ⟨hbp2.symm, ?_⟩
      rw [hfl]
      intro hmem
      exact hbp (List.erase_subset _ _ hmem)
  · -- case 3: previous free, next allocated
    rw [if_neg (by simp [hpa, hna]), if_neg (by simp [hpa, hna]),
        if_pos ⟨hpa, by simp [hna]⟩] at hrun
    simp only [Option.bind_eq_bind, Option.bind_eq_some] at hrun
    obtain ⟨a1, e1, w2, e2, a2, e3, w3, e4, hfin⟩ := hrun
    have hw2 : w2 = wpsz := by
      have hm := v3_putW_mem_ne e1 (bp - 16) (by omega)
      have hr := v3_readW_some e2
      have hb := v3_readW_some h1
      rw [hr.1.symm, hm, hb.1]
    rw [hw2] at e3
    have hw3 : w3 = wpsz := by
      have hm2 := v3_putW_mem_ne e3 (bp - 16) (by omega)
      have hm1 := v3_putW_mem_ne e1 (bp - 16) (by omega)
      have hr := v3_readW_some e4
      have hb := v3_readW_some h1
      rw [hr.1.symm, hm2, hm1, hb.1]
    rw [hw3] at hfin
    simp only [Option.pure_def, Option.some.injEq, Prod.mk.injEq] at hfin
    obtain ⟨hbp2, hst2⟩ := hfin
    have hfl : st2.freeList = st.freeList := by
      rw [← hst2, (v3_putW_fields e3).2.2.2.2.1, (v3_putW_fields e1).2.2.2.2.1]
    refine ⟨?_, ?_, ?_⟩
    · rw [hfl, ← hbp2]
      exact List.count_eq_one_of_mem hnd (hprev hpa)
    · intro hcon
      exact absurd hcon hna
    · intro _
      exact ⟨hbp2.symm, by rw [hfl]; exact hbp⟩
  · -- case 2: previous allocated, next free
    rw [if_neg (by simp [hpa, hna]), if_pos ⟨by simp [hpa], hna⟩] at hrun
    simp only [Option.bind_eq_bind, Option.bind_eq_some] at hrun
    obtain ⟨a1, e1, w2, e2, a2, e3, hfin⟩ := hrun
    simp only [Option.pure_def, Option.some.injEq, Prod.mk.injEq] at hfin
    obtain ⟨hbp2, hst2⟩ := hfin
    have hd2 : (V3.delete_node st (bp + (getSizeW whd : Int))).freeList
        = st.freeList.erase (bp + (getSizeW whd : Int)) := rfl
    have hfl : st2.freeList = bp :: st.freeList.erase (bp + (getSizeW whd : Int)) := by
      rw [← hst2]
      show (V3.insert_node a2 bp).freeList = _
      rw [V3.insert_node]
      rw [(v3_putW_fields e3).2.2.2.2.1, (v3_putW_fields e1).2.2.2.2.1, hd2]
    refine ⟨?_, ?_, ?_⟩
    · rw [hfl, ← hbp2]
      rw [List.count_cons_self]
      have hh : bp ∉ st.freeList.erase (bp + (getSizeW whd : Int)) := by
        intro hmem
        exact hbp (List.erase_subset _ _ hmem)
      rw [List.count_eq_zero.2 hh]
    · intro _
      rw [hfl]
      intro hmem
      rcases List.mem_cons.1 hmem with hc | hc
      · omega
      · have hc2 := List.count_erase_self (bp + (getSizeW whd : Int)) st.freeList
        have hone := List.count_eq_one_of_mem hnd (hnext hna)
        have := List.count_pos_iff.2 hc
        omega
    · intro hcon
      exact absurd hcon hpa
  · -- case 1: both allocated
    rw [if_pos ⟨by simp [hpa], by simp [hna]⟩] at hrun
    simp only [Option.pure_def, Option.some.injEq, Prod.mk.injEq] at hrun
    obtain ⟨hbp2, hst2⟩ := hrun
    have hfl : st2.freeList = bp :: st.freeList := by
      rw [← hst2]
      rfl
    refine ⟨?_, ?_, ?_⟩
    · rw [hfl, ← hbp2, List.count_cons_self, List.count_eq_zero.2 hbp]
    · intro hcon
      exact absurd hcon hna
    · intro hcon
      exact absurd hcon hpa

/-- A small V3 heap for the C7 witness: prologue, allocated block at 32,
free block at 64 (not yet inserted), allocated block at 96, epilogue. -/
def c7heap : V3.Heap :=
  { mem := fun a =>
      if a = 8 then 17 else if a = 16 then 17 else if a = 24 then 33
      else if a = 48 then 33 else if a = 56 then 32 else if a = 80 then 32
      else if a = 88 then 33 else if a = 112 then 33 else if a = 120 then 1 else 0,
    data := fun _ => 0, lo := 0, brk := 128, limit := 128,
    heapListP := 16, freeList := [], init := true }

/-- Witness for C7: coalescing the free block at 64 between two allocated
neighbors inserts it exactly once. -/
theorem c7_coalesce_single_insertion_witness :
    (V3.insert_node c7heap 64).freeList.count 64 = 1 :=
  (c7_coalesce_single_insertion c7heap 64 64 (V3.insert_node c7heap 64) 33 33 33 32 33
    rfl rfl rfl rfl rfl (by decide) (by decide) (by decide) (by decide) (by decide) (by decide)
    rfl).1

/-! ### Word-level corollaries and memory effects of V3 free/coalesce -/

lemma getSizeW_lt_W64 (w : Nat) : getSizeW w < W64 :=
  lt_of_le_of_lt (Nat.and_le_right) (by norm_num [W64])

lemma getSizeW_idem (w : Nat) : getSizeW (getSizeW w) = getSizeW w := by
  unfold getSizeW
  rw [Nat.land_assoc]
  congr 1

lemma getAllocW_getSizeW (w : Nat) : getAllocW (getSizeW w) = 0 := by
  unfold getAllocW getSizeW
  rw [Nat.land_assoc]
  have hz : ((W64 - 16 : Nat) &&& 1) = 0 := by decide
  rw [hz]
  simp

lemma pack_zero (s : Nat) : pack s 0 = s := by
  unfold pack
  simp

lemma getAllocW_pack_zero_mod {s : Nat} (h16 : 16 ∣ s) :
    getAllocW (pack s 0 % W64) = 0 := by
  rw [pack_zero]
  unfold getAllocW
  rw [Nat.and_one_is_mod]
  have : (2 : Nat) ∣ s := dvd_trans (by norm_num) h16
  unfold W64
  omega

lemma v3_putW_mem_self {st : V3.Heap} {a : Int} {v : Nat} {st1 : V3.Heap}
    (h : V3.putW st a v = some st1) : st1.mem a = v % W64 := by
  rw [V3.putW] at h
  split at h
  · cases h
    simp
  · exact Option.noConfusion h

/-- Every word `coalesce` writes carries a cleared allocation bit: each
memory cell is either untouched or holds `PACK(s, 0)` for a 16-divisible
`s`. -/
lemma v3_coalesce_mem {st : V3.Heap} {bp bp2 : Int} {st2 : V3.Heap}
    (hrun : V3.coalesce st bp = some (bp2, st2)) (a : Int) :
    st2.mem a = st.mem a ∨ ∃ s2, 16 ∣ s2 ∧ st2.mem a = pack s2 0 % W64 := by
  rw [V3.coalesce] at hrun
  simp only [Option.bind_eq_bind, Option.bind_eq_some] at hrun
  obtain ⟨wpsz, -, wph, -, wpf, -, whd, -, wnh, -, hrun⟩ := hrun
  split at hrun
  · simp only [Option.pure_def, Option.some.injEq, Prod.mk.injEq] at hrun
    left
    rw [← hrun.2]
    rfl
  · split at hrun
    · simp only [Option.bind_eq_bind, Option.bind_eq_some] at hrun
      obtain ⟨a1, e1, w2, -, a2, e3, hfin⟩ := hrun
      simp only [Option.pure_def, Option.some.injEq, Prod.mk.injEq] at hfin
      have hm2 : st2.mem = a2.mem := by rw [← hfin.2]; rfl
      rw [hm2]
      by_cases hc2 : a = bp + (getSizeW w2 : Int) - 16
      · right
        refine ⟨getSizeW whd + getSizeW wnh, ?_, ?_⟩
        · exact dvd_add (getSizeW_dvd _) (getSizeW_dvd _)
        · rw [hc2]
          exact v3_putW_mem_self e3
      · rw [v3_putW_mem_ne e3 a hc2]
        by_cases hc1 : a = bp - 8
        · right
          refine ⟨getSizeW whd + getSizeW wnh, ?_, ?_⟩
          · exact dvd_add (getSizeW_dvd _) (getSizeW_dvd _)
          · rw [hc1]
            exact v3_putW_mem_self e1
        · left
          rw [v3_putW_mem_ne e1 a hc1]
          rfl
    · split at hrun
      · simp only [Option.bind_eq_bind, Option.bind_eq_some] at hrun
        obtain ⟨a1, e1, w2, -, a2, e3, w3, -, hfin⟩ := hrun
        simp only [Option.pure_def, Option.some.injEq, Prod.mk.injEq] at hfin
        have hm2 : st2.mem = a2.mem := by rw [← hfin.2]
        rw [hm2]
        by_cases hc2 : a = bp - (getSizeW w2 : Int) - 8
        · right
          refine ⟨getSizeW whd + getSizeW wpf, ?_, ?_⟩
          · exact dvd_add (getSizeW_dvd _) (getSizeW_dvd _)
          · rw [hc2]
            exact v3_putW_mem_self e3
        · rw [v3_putW_mem_ne e3 a hc2]
          by_cases hc1 : a = bp + (getSizeW whd : Int) - 16
          · right
            refine ⟨getSizeW whd + getSizeW wpf, ?_, ?_⟩
            · exact dvd_add (getSizeW_dvd _) (getSizeW_dvd _)
            · rw [hc1]
              exact v3_putW_mem_self e1
          · left
            rw [v3_putW_mem_ne e1 a hc1]
      · simp only [Option.bind_eq_bind, Option.bind_eq_some] at hrun
        obtain ⟨a1, e1, w2, -, w3, -, a2, e4, w4, -, hfin⟩ := hrun
        simp only [Option.pure_def, Option.some.injEq, Prod.mk.injEq] at hfin
        have hm2 : st2.mem = a2.mem := by rw [← hfin.2]
        rw [hm2]
        by_cases hc2 : a = bp + (getSizeW w2 : Int) + (getSizeW w3 : Int) - 16
        · right
          refine ⟨getSizeW whd + getSizeW wpf + getSizeW wnh, ?_, ?_⟩
          · exact dvd_add (dvd_add (getSizeW_dvd _) (getSizeW_dvd _)) (getSizeW_dvd _)
          · rw [hc2]
            exact v3_putW_mem_self e4
        · rw [v3_putW_mem_ne e4 a hc2]
          by_cases hc1 : a = bp - (getSizeW wpsz : Int) - 8
          · right
            refine ⟨getSizeW whd + getSizeW wpf + getSizeW wnh, ?_, ?_⟩
            · exact dvd_add (dvd_add (getSizeW_dvd _) (getSizeW_dvd _)) (getSizeW_dvd _)
            · rw [hc1]
              exact v3_putW_mem_self e1
          · left
            rw [v3_putW_mem_ne e1 a hc1]
            rfl

/-- After a successful `my_free(p)`, the header word of `p` has a cleared
allocation bit (whatever coalescing case ran). -/
lemma v3_my_free_header {st : V3.Heap} {p : Int} {st1 : V3.Heap}
    (h : V3.my_free st p = some st1) : getAllocW (st1.mem (p - 8)) = 0 := by
  rw [V3.my_free] at h
  simp only [Option.bind_eq_bind, Option.bind_eq_some] at h
  obtain ⟨wh, -, a1, e1, wh1, e2, a2, e3, ⟨b2, s3⟩, e4, hfin⟩ := h
  have hs := getSizeW_lt_W64 wh
  have hwh1 : wh1 = getSizeW wh := by
    have hr := v3_readW_some e2
    have hself := v3_putW_mem_self e1
    rw [← hr.1, hself, pack_zero, Nat.mod_eq_of_lt hs]
  have hne : (p - 8 : Int) ≠ p + (getSizeW wh1 : Int) - 16 := by
    rw [hwh1, getSizeW_idem]
    obtain ⟨k, hk⟩ := getSizeW_dvd wh
    omega
  have ha2 : a2.mem (p - 8) = getSizeW wh := by
    rw [v3_putW_mem_ne e3 (p - 8) hne, v3_putW_mem_self e1, pack_zero,
        Nat.mod_eq_of_lt hs]
  simp only [Option.pure_def, Option.some.injEq] at hfin
  rw [← hfin]
  rcases v3_coalesce_mem e4 (p - 8) with hc | ⟨s2, hdvd2, heq⟩
  · rw [hc, ha2]
    exact getAllocW_getSizeW wh
  · rw [heq]
    exact getAllocW_pack_zero_mod hdvd2

/-! ### The payload byte map is untouched by V3 allocation and free -/

lemma v3_coalesce_data {st : V3.Heap} {bp bp2 : Int} {st2 : V3.Heap}
    (hrun : V3.coalesce st bp = some (bp2, st2)) : st2.data = st.data := by
  rw [V3.coalesce] at hrun
  simp only [Option.bind_eq_bind, Option.bind_eq_some] at hrun
  obtain ⟨wpsz, -, wph, -, wpf, -, whd, -, wnh, -, hrun⟩ := hrun
  split at hrun
  · simp only [Option.pure_def, Option.some.injEq, Prod.mk.injEq] at hrun
    rw [← hrun.2]
    rfl
  · split at hrun
    · simp only [Option.bind_eq_bind, Option.bind_eq_some] at hrun
      obtain ⟨a1, e1, w2, -, a2, e3, hfin⟩ := hrun
      simp only [Option.pure_def, Option.some.injEq, Prod.mk.injEq] at hfin
      have : st2.data = a2.data := by rw [← hfin.2]; rfl
      rw [this, (v3_putW_fields e3).2.2.2.2.2.2, (v3_putW_fields e1).2.2.2.2.2.2]
      rfl
    · split at hrun
      · simp only [Option.bind_eq_bind, Option.bind_eq_some] at hrun
        obtain ⟨a1, e1, w2, -, a2, e3, w3, -, hfin⟩ := hrun
        simp only [Option.pure_def, Option.some.injEq, Prod.mk.injEq] at hfin
        have : st2.data = a2.data := by rw [← hfin.2]
        rw [this, (v3_putW_fields e3).2.2.2.2.2.2, (v3_putW_fields e1).2.2.2.2.2.2]
      · simp only [Option.bind_eq_bind, Option.bind_eq_some] at hrun
        obtain ⟨a1, e1, w2, -, w3, -, a2, e4, w4, -, hfin⟩ := hrun
        simp only [Option.pure_def, Option.some.injEq, Prod.mk.injEq] at hfin
        have : st2.data = a2.data := by rw [← hfin.2]
        rw [this, (v3_putW_fields e4).2.2.2.2.2.2, (v3_putW_fields e1).2.2.2.2.2.2]
        rfl

lemma v3_place_data {st : V3.Heap} {bp : Int} {s : Nat} {st1 : V3.Heap}
    (h : V3.place st bp s = some st1) : st1.data = st.data := by
  rw [V3.place] at h
  rw [Option.bind_eq_bind, Option.bind_eq_some] at h
  obtain ⟨wh, -, h⟩ := h
  simp only [] at h
  split at h
  · simp only [Option.bind_eq_bind, Option.bind_eq_some] at h
    obtain ⟨a1, e1, w1, -, a2, e2, w2, -, a3, e3, w3, -, a4, e4, hfin⟩ := h
    simp only [Option.pure_def, Option.some.injEq] at hfin
    have : st1.data = a4.data := by rw [← hfin]; rfl
    rw [this, (v3_putW_fields e4).2.2.2.2.2.2, (v3_putW_fields e3).2.2.2.2.2.2,
        (v3_putW_fields e2).2.2.2.2.2.2, (v3_putW_fields e1).2.2.2.2.2.2]
    rfl
  · simp only [Option.bind_eq_bind, Option.bind_eq_some] at h
    obtain ⟨a1, e1, w1, -, a2, e2, hfin⟩ := h
    simp only [Option.pure_def, Option.some.injEq] at hfin
    rw [← hfin, (v3_putW_fields e2).2.2.2.2.2.2, (v3_putW_fields e1).2.2.2.2.2.2]
    rfl

lemma v3_extend_heap_data {st : V3.Heap} {w : Nat} {r : Option Int} {st1 : V3.Heap}
    (h : V3.extend_heap st w = some (r, st1)) : st1.data = st.data := by
  rw [V3.extend_heap] at h
  split at h <;>
  · split at h
    · simp only [Option.some.injEq, Prod.mk.injEq] at h
      rw [← h.2]
    · simp only [Option.bind_eq_bind, Option.bind_eq_some] at h
      obtain ⟨a1, e1, w1, -, a2, e2, w2, -, a3, e3, ⟨b2, s4⟩, e4, hfin⟩ := h
      simp only [Option.pure_def, Option.some.injEq, Prod.mk.injEq] at hfin
      rw [← hfin.2, v3_coalesce_data e4, (v3_putW_fields e3).2.2.2.2.2.2,
          (v3_putW_fields e2).2.2.2.2.2.2, (v3_putW_fields e1).2.2.2.2.2.2]

lemma v3_malloc_with_data {st : V3.Heap} {a : Nat} {r : Option Int} {st1 : V3.Heap}
    (h : V3.malloc_with st a = some (r, st1)) : st1.data = st.data := by
  rw [V3.malloc_with] at h
  split at h
  · exact Option.noConfusion h
  · simp only [Option.map_eq_some'] at h
    obtain ⟨s, hs, h⟩ := h
    simp only [Prod.mk.injEq] at h
    rw [← h.2]
    exact v3_place_data hs
  · simp only [] at h
    split at h
    · exact Option.noConfusion h
    · rename_i heq
      simp only [Option.some.injEq, Prod.mk.injEq] at h
      rw [← h.2]
      exact v3_extend_heap_data heq
    · rename_i bp stx heq
      simp only [Option.map_eq_some'] at h
      obtain ⟨s, hs, h⟩ := h
      simp only [Prod.mk.injEq] at h
      rw [← h.2, v3_place_data hs]
      exact v3_extend_heap_data heq

lemma v3_my_malloc_data {st : V3.Heap} {size : Nat} {r : Option Int} {st1 : V3.Heap}
    (hinit : st.init = true)
    (h : V3.my_malloc st size = some (r, st1)) : st1.data = st.data := by
  rw [V3.my_malloc, hinit] at h
  simp only [if_true] at h
  split at h
  · simp only [Option.some.injEq, Prod.mk.injEq] at h
    rw [← h.2]
  · exact v3_malloc_with_data h

lemma v3_my_free_data {st : V3.Heap} {p : Int} {st1 : V3.Heap}
    (h : V3.my_free st p = some st1) : st1.data = st.data := by
  rw [V3.my_free] at h
  simp only [Option.bind_eq_bind, Option.bind_eq_some] at h
  obtain ⟨wh, -, a1, e1, wh1, -, a2, e3, ⟨b2, s3⟩, e4, hfin⟩ := h
  simp only [Option.pure_def, Option.some.injEq] at hfin
  rw [← hfin, v3_coalesce_data e4, (v3_putW_fields e3).2.2.2.2.2.2,
      (v3_putW_fields e1).2.2.2.2.2.2]

/-- Claim C9: when `my_realloc(p, size)` cannot satisfy the request in
place (the adjusted size exceeds the current block size, and the next
block is allocated or too small), it allocates a new block, copies
`min(size, old_size - DWORD)` payload bytes of the old block into it,
frees the old block (its header's allocation bit is cleared), and returns
the new pointer; if the inner allocation fails, it returns null and the
state — the old block included — is exactly as at entry. -/
theorem c9_realloc_fallback (st : V3.Heap) (ptr : Int) (size : Nat) (wh wnh : Nat)
    (hinit : st.init = true)
    (hsz : size ≠ 0)
    (hptr : ptr ≠ 0)
    (hwh : V3.readW st (ptr - 8) = some wh)
    (hgrow : ¬ (V3.asizeOf size ≤ getSizeW wh))
    (hwnh : V3.readW st (ptr + (getSizeW wh : Int) - 8) = some wnh)
    (hfail : ¬ (getAllocW wnh = 0 ∧ V3.asizeOf size ≤ getSizeW wh + getSizeW wnh))
    (h16 : 16 ≤ getSizeW wh) :
    (∀ st1, V3.my_malloc st size = some (none, st1) →
        V3.my_realloc st ptr size = some (none, st))
    ∧ (∀ newp st1, V3.my_malloc st size = some (some newp, st1) →
        V3.my_realloc st ptr size
          = (V3.my_free (V3.memcpy st1 newp ptr (min size (getSizeW wh - 16))) ptr).map
              (fun st3 => (some newp, st3))
        ∧ (∀ st3,
            V3.my_free (V3.memcpy st1 newp ptr (min size (getSizeW wh - 16))) ptr = some st3 →
            (∀ i : Nat, i < min size (getSizeW wh - 16) →
                st3.data (newp + (i : Int)) = st.data (ptr + (i : Int)))
            ∧ getAllocW (st3.mem (ptr - 8)) = 0)) := by
  have hW : W64 = 18446744073709551616 := by norm_num [W64]
  have hlt := getSizeW_lt_W64 wh
  have hc0 : (getSizeW wh + W64 - DWORD) % W64 = getSizeW wh - 16 := by
    rw [hW] at hlt ⊢
    simp only [DWORD]
    omega
  have hcopy : (if size < getSizeW wh - 16 then size else getSizeW wh - 16)
      = min size (getSizeW wh - 16) := by
    split <;> omega
  constructor
  · intro st1 hmal
    rw [V3.my_realloc, if_neg hsz, if_neg hptr]
    simp only [hwh, Option.bind_eq_bind, Option.some_bind]
    rw [if_neg hgrow]
    simp only [hwnh, Option.bind_eq_bind, Option.some_bind]
    rw [if_neg hfail]
    simp only [hmal]
    rw [v3_my_malloc_ret_none st size st1 hinit hmal]
  · intro newp st1 hmal
    have hgoal : V3.my_realloc st ptr size
        = (V3.my_free (V3.memcpy st1 newp ptr (min size (getSizeW wh - 16))) ptr).map
            (fun st3 => (some newp, st3)) := by
      rw [V3.my_realloc, if_neg hsz, if_neg hptr]
      simp only [hwh, Option.bind_eq_bind, Option.some_bind]
      rw [if_neg hgrow]
      simp only [hwnh, Option.bind_eq_bind, Option.some_bind]
      rw [if_neg hfail]
      simp only [hmal]
      rw [hc0, hcopy]
      cases hf : V3.my_free (V3.memcpy st1 newp ptr (min size (getSizeW wh - 16))) ptr <;>
        simp [hf]
    refine ⟨hgoal, ?_⟩
    intro st3 hf
    refine ⟨?_, ?_⟩
    · intro i hi
      have hd3 := v3_my_free_data hf
      have hd1 := v3_my_malloc_data hinit hmal
      rw [hd3]
      show (V3.memcpy st1 newp ptr (min size (getSizeW wh - 16))).data (newp + (i : Int))
          = st.data (ptr + (i : Int))
      rw [V3.memcpy]
      simp only []
      rw [if_pos (by constructor <;> omega)]
      rw [hd1]
      rw [add_sub_cancel_left]
    · exact v3_my_free_header hf


/-- The V3 heap after two `my_malloc(64)` calls: blocks 32 and 112
allocated, the remainder 192 free. -/
def v3heapB : V3.Heap :=
  match V3.my_malloc v3heapA 64 with
  | some (_, s) => s
  | none => v3heapA

def v3heapC : V3.Heap :=
  match V3.my_malloc v3heapB 128 with
  | some (_, s) => s
  | none => v3heapB

def v3heapD : V3.Heap :=
  match V3.my_free (V3.memcpy v3heapC 192 32 (min 128 (getSizeW 81 - 16))) 32 with
  | some s => s
  | none => v3heapC

/-- Witness for C9: `reallocate(A, 128)` with both neighbors allocated
falls back to allocate-copy-free; the freed header of `A` shows a cleared
allocation bit and the copied byte at offset 0 survives. -/
theorem c9_realloc_fallback_witness :
    (∀ i : Nat, i < min 128 (getSizeW 81 - 16) →
        v3heapD.data (192 + (i : Int)) = v3heapB.data (32 + (i : Int)))
    ∧ getAllocW (v3heapD.mem (32 - 8)) = 0 :=
  ((c9_realloc_fallback v3heapB 32 128 81 81 rfl (by decide) (by decide) rfl
      (by decide) rfl (by decide) (by decide)).2 192 v3heapC rfl).2 v3heapD rfl

lemma getSizeW_int_dvd (w : Nat) : (16:Int) ∣ (getSizeW w : Int) := by
  exact_mod_cast Int.natCast_dvd_natCast.2 (getSizeW_dvd w)

lemma v2_putW_fields {st : V2.Heap} {a : Int} {v : Nat} {st1 : V2.Heap}
    (h : V2.putW st a v = some st1) :
    st1.lo = st.lo ∧ st1.brk = st.brk ∧ st1.limit = st.limit
    ∧ st1.heapListP = st.heapListP ∧ st1.init = st.init := by
  rw [V2.putW] at h
  split at h
  · cases h
    exact ⟨rfl, rfl, rfl, rfl, rfl⟩
  · exact Option.noConfusion h

lemma v2_coalesce_frame {st : V2.Heap} {bp bp2 : Int} {st2 : V2.Heap}
    (hrun : V2.coalesce st bp = some (bp2, st2)) :
    (16:Int) ∣ (bp - bp2) ∧ st2.brk = st.brk ∧ st2.heapListP = st.heapListP := by
  rw [V2.coalesce] at hrun
  simp only [Option.bind_eq_bind, Option.bind_eq_some] at hrun
  obtain ⟨wpsz, -, wph, -, wpf, -, whd, -, wnh, -, hrun⟩ := hrun
  split at hrun
  · simp only [Option.pure_def, Option.some.injEq, Prod.mk.injEq] at hrun
    obtain ⟨hbp, hst⟩ := hrun
    subst hst
    refine ⟨?_, rfl, rfl⟩
    omega
  · split at hrun
    · simp only [Option.bind_eq_bind, Option.bind_eq_some] at hrun
      obtain ⟨a1, e1, w2, -, a2, e3, hfin⟩ := hrun
      simp only [Option.pure_def, Option.some.injEq, Prod.mk.injEq] at hfin
      obtain ⟨hbp, hst⟩ := hfin
      refine ⟨by omega, ?_, ?_⟩
      · rw [← hst, (v2_putW_fields e3).2.1, (v2_putW_fields e1).2.1]
      · rw [← hst, (v2_putW_fields e3).2.2.2.1, (v2_putW_fields e1).2.2.2.1]
    · split at hrun
      · simp only [Option.bind_eq_bind, Option.bind_eq_some] at hrun
        obtain ⟨a1, e1, w2, -, a2, e3, w3, -, hfin⟩ := hrun
        simp only [Option.pure_def, Option.some.injEq, Prod.mk.injEq] at hfin
        obtain ⟨hbp, hst⟩ := hfin
        have hs := getSizeW_int_dvd w3
        refine ⟨by omega, ?_, ?_⟩
        · rw [← hst, (v2_putW_fields e3).2.1, (v2_putW_fields e1).2.1]
        · rw [← hst, (v2_putW_fields e3).2.2.2.1, (v2_putW_fields e1).2.2.2.1]
      · simp only [Option.bind_eq_bind, Option.bind_eq_some] at hrun
        obtain ⟨a1, e1, w2, -, w3, -, a2, e4, w4, -, hfin⟩ := hrun
        simp only [Option.pure_def, Option.some.injEq, Prod.mk.injEq] at hfin
        obtain ⟨hbp, hst⟩ := hfin
        have hs := getSizeW_int_dvd w4
        refine ⟨by omega, ?_, ?_⟩
        · rw [← hst, (v2_putW_fields e4).2.1, (v2_putW_fields e1).2.1]
        · rw [← hst, (v2_putW_fields e4).2.2.2.1, (v2_putW_fields e1).2.2.2.1]

lemma v2_extend_heap_frame {st : V2.Heap} {w : Nat} {r : Option Int} {st1 : V2.Heap}
    (h : V2.extend_heap st w = some (r, st1)) :
    (16:Int) ∣ (st1.brk - st.brk) ∧ st1.heapListP = st.heapListP
    ∧ ∀ bp2, r = some bp2 → (16:Int) ∣ (st.brk - bp2) := by
  rw [V2.extend_heap] at h
  split at h <;> rename_i hpar <;>
  · split at h
    · simp only [Option.some.injEq, Prod.mk.injEq] at h
      obtain ⟨hr, hst⟩ := h
      refine ⟨by rw [← hst]; omega, by rw [← hst], ?_⟩
      intro bp2 hbp2
      rw [← hr] at hbp2
      exact Option.noConfusion hbp2
    · simp only [Option.bind_eq_bind, Option.bind_eq_some] at h
      obtain ⟨a1, e1, w1, -, a2, e2, w2, -, a3, e3, ⟨b2, s4⟩, e4, hfin⟩ := h
      simp only [Option.pure_def, Option.some.injEq, Prod.mk.injEq] at hfin
      obtain ⟨hr, hst⟩ := hfin
      have hco := v2_coalesce_frame e4
      have hbrk : (16:Int) ∣ (a3.brk - st.brk) := by
        rw [(v2_putW_fields e3).2.1, (v2_putW_fields e2).2.1, (v2_putW_fields e1).2.1]
        dsimp only
        simp only [WORD]
        push_cast
        omega
      refine ⟨?_, ?_, ?_⟩
      · rw [← hst, hco.2.1]
        exact hbrk
      · rw [← hst, hco.2.2, (v2_putW_fields e3).2.2.2.1, (v2_putW_fields e2).2.2.2.1,
            (v2_putW_fields e1).2.2.2.1]
      · intro bp2 hbp2
        rw [← hr] at hbp2
        injection hbp2 with hbp2
        have := hco.1
        omega

lemma v2_find_fit_bp {st : V2.Heap} {a : Nat} (fuel : Nat) :
    ∀ (bp r : Int), V2.find_fit st a fuel bp = some (some r) → (16:Int) ∣ (r - bp) := by
  induction fuel with
  | zero =>
      intro bp r h
      exact Option.noConfusion h
  | succ n ih =>
      intro bp r h
      rw [V2.find_fit] at h
      simp only [Option.bind_eq_bind, Option.bind_eq_some] at h
      obtain ⟨wh, -, h⟩ := h
      split at h
      · split at h
        · simp only [Option.pure_def, Option.some.injEq] at h
          omega
        · have hrec := ih (bp + (getSizeW wh : Int)) r h
          have hs := getSizeW_int_dvd wh
          omega
      · simp only [Option.pure_def, Option.some.injEq] at h
        exact Option.noConfusion h

lemma v2_mminit_frame {st : V2.Heap} {st6 : V2.Heap}
    (h : V2.mminit st = some st6) :
    st6.heapListP = st.brk + 16 ∧ (16:Int) ∣ (st6.brk - st.brk) := by
  rw [V2.mminit] at h
  split at h
  · exact Option.noConfusion h
  · simp only [Option.bind_eq_bind, Option.bind_eq_some] at h
    obtain ⟨a1, e1, a2, e2, a3, e3, a4, e4, h⟩ := h
    split at h
    · exact Option.noConfusion h
    · exact Option.noConfusion h
    · rename_i bp s6 heq
      injection h with h6
      have hfr := v2_extend_heap_frame heq
      have hbrk : a4.brk = st.brk + 32 := by
        rw [(v2_putW_fields e4).2.1, (v2_putW_fields e3).2.1,
            (v2_putW_fields e2).2.1, (v2_putW_fields e1).2.1]
      constructor
      · rw [← h6, hfr.2.1]
      · rw [← h6]
        have := hfr.1
        rw [hbrk] at this
        omega

lemma v2_malloc_with_bp {st : V2.Heap} {a : Nat} {bp : Int} {st1 : V2.Heap}
    (hh : (16:Int) ∣ st.heapListP) (hb : (16:Int) ∣ st.brk)
    (h : V2.malloc_with st a = some (some bp, st1)) : (16:Int) ∣ bp := by
  rw [V2.malloc_with] at h
  split at h
  · exact Option.noConfusion h
  · rename_i bp' hff
    simp only [Option.map_eq_some'] at h
    obtain ⟨s, -, h⟩ := h
    simp only [Prod.mk.injEq] at h
    obtain ⟨h1, -⟩ := h
    injection h1 with h1
    have hd := v2_find_fit_bp _ _ _ hff
    omega
  · simp only [] at h
    split at h
    · exact Option.noConfusion h
    · simp at h
    · rename_i bp' stx heq
      simp only [Option.map_eq_some'] at h
      obtain ⟨s, -, h⟩ := h
      simp only [Prod.mk.injEq] at h
      obtain ⟨h1, -⟩ := h
      injection h1 with h1
      have hd := (v2_extend_heap_frame heq).2.2 bp' rfl
      omega

lemma v2_my_malloc_bp {st : V2.Heap} {size : Nat} {bp : Int} {st1 : V2.Heap}
    (hh : (16:Int) ∣ st.heapListP) (hb : (16:Int) ∣ st.brk)
    (h : V2.my_malloc st size = some (some bp, st1)) : (16:Int) ∣ bp := by
  rw [V2.my_malloc] at h
  cases hinit : st.init with
  | true =>
      rw [hinit] at h
      rw [if_pos rfl] at h
      split at h
      · simp at h
      · rename_i st0 heq
        injection heq with heq
        subst heq
        split at h
        · simp at h
        · exact v2_malloc_with_bp hh hb h
  | false =>
      rw [hinit] at h
      rw [if_neg (by simp)] at h
      split at h
      · exact Option.noConfusion h
      · rename_i st0 hmm
        have hfr := v2_mminit_frame hmm
        split at h
        · simp at h
        · refine v2_malloc_with_bp ?_ ?_ h
          · rw [hfr.1]
            omega
          · have := hfr.2
            omega

/-- A fresh cache of 24-byte objects over a fresh buddy arena: the object
size is not a multiple of 16, so slot pointers drift off alignment. -/
def cache24 : V5.KState := ⟨V5.kmem_cache_create "object24" 24, V4.buddy_init⟩

/-- The cache after one `kmem_cache_alloc` (slot 0 of a fresh slab taken). -/
def c2k24 : V5.KState :=
  match V5.kmem_cache_alloc cache24 with
  | some (_, s) => s
  | none => cache24

lemma v3_coalesce_frame {st : V3.Heap} {bp bp2 : Int} {st2 : V3.Heap}
    (hbp : (16:Int) ∣ bp) (hfl : ∀ x ∈ st.freeList, (16:Int) ∣ x)
    (hrun : V3.coalesce st bp = some (bp2, st2)) :
    (16:Int) ∣ bp2 ∧ st2.brk = st.brk ∧ ∀ x ∈ st2.freeList, (16:Int) ∣ x := by
  rw [V3.coalesce] at hrun
  simp only [Option.bind_eq_bind, Option.bind_eq_some] at hrun
  obtain ⟨wpsz, -, wph, -, wpf, -, whd, -, wnh, -, hrun⟩ := hrun
  split at hrun
  · simp only [Option.pure_def, Option.some.injEq, Prod.mk.injEq] at hrun
    obtain ⟨hbp2, hst⟩ := hrun
    refine ⟨by omega, by rw [← hst]; rfl, ?_⟩
    intro x hx
    rw [← hst] at hx
    rcases List.mem_cons.1 hx with hx1 | hx2
    · rw [hx1]; omega
    · exact hfl x hx2
  · split at hrun
    · simp only [Option.bind_eq_bind, Option.bind_eq_some] at hrun
      obtain ⟨a1, e1, w2, -, a2, e3, hfin⟩ := hrun
      simp only [Option.pure_def, Option.some.injEq, Prod.mk.injEq] at hfin
      obtain ⟨hbp2, hst⟩ := hfin
      refine ⟨by omega, ?_, ?_⟩
      · rw [← hst]
        show a2.brk = st.brk
        rw [(v3_putW_fields e3).2.1, (v3_putW_fields e1).2.1]
        rfl
      · intro x hx
        rw [← hst] at hx
        have hx' : x ∈ bp :: a2.freeList := hx
        rcases List.mem_cons.1 hx' with hx1 | hx2
        · rw [hx1]; omega
        · rw [(v3_putW_fields e3).2.2.2.2.1, (v3_putW_fields e1).2.2.2.2.1] at hx2
          exact hfl x (List.mem_of_mem_erase hx2)
    · split at hrun
      · simp only [Option.bind_eq_bind, Option.bind_eq_some] at hrun
        obtain ⟨a1, e1, w2, -, a2, e3, w3, -, hfin⟩ := hrun
        simp only [Option.pure_def, Option.some.injEq, Prod.mk.injEq] at hfin
        obtain ⟨hbp2, hst⟩ := hfin
        have hs := getSizeW_int_dvd w3
        refine ⟨by omega, ?_, ?_⟩
        · rw [← hst, (v3_putW_fields e3).2.1, (v3_putW_fields e1).2.1]
        · intro x hx
          rw [← hst, (v3_putW_fields e3).2.2.2.2.1, (v3_putW_fields e1).2.2.2.2.1] at hx
          exact hfl x hx
      · simp only [Option.bind_eq_bind, Option.bind_eq_some] at hrun
        obtain ⟨a1, e1, w2, -, w3, -, a2, e4, w4, -, hfin⟩ := hrun
        simp only [Option.pure_def, Option.some.injEq, Prod.mk.injEq] at hfin
        obtain ⟨hbp2, hst⟩ := hfin
        have hs := getSizeW_int_dvd w4
        refine ⟨by omega, ?_, ?_⟩
        · rw [← hst, (v3_putW_fields e4).2.1, (v3_putW_fields e1).2.1]
          rfl
        · intro x hx
          rw [← hst, (v3_putW_fields e4).2.2.2.2.1, (v3_putW_fields e1).2.2.2.2.1] at hx
          exact hfl x (List.mem_of_mem_erase hx)

lemma v3_extend_heap_frame {st : V3.Heap} {w : Nat} {r : Option Int} {st1 : V3.Heap}
    (hb : (16:Int) ∣ st.brk) (hfl : ∀ x ∈ st.freeList, (16:Int) ∣ x)
    (h : V3.extend_heap st w = some (r, st1)) :
    (16:Int) ∣ st1.brk ∧ (∀ x ∈ st1.freeList, (16:Int) ∣ x)
    ∧ ∀ bp2, r = some bp2 → (16:Int) ∣ bp2 := by
  rw [V3.extend_heap] at h
  split at h <;> rename_i hpar <;>
  · split at h
    · simp only [Option.some.injEq, Prod.mk.injEq] at h
      obtain ⟨hr, hst⟩ := h
      refine ⟨by rw [← hst]; exact hb, by rw [← hst]; exact hfl, ?_⟩
      intro bp2 hbp2
      rw [← hr] at hbp2
      exact Option.noConfusion hbp2
    · simp only [Option.bind_eq_bind, Option.bind_eq_some] at h
      obtain ⟨a1, e1, w1, -, a2, e2, w2, -, a3, e3, ⟨b2, s4⟩, e4, hfin⟩ := h
      simp only [Option.pure_def, Option.some.injEq, Prod.mk.injEq] at hfin
      obtain ⟨hr, hst⟩ := hfin
      have hfl3 : ∀ x ∈ a3.freeList, (16:Int) ∣ x := by
        rw [(v3_putW_fields e3).2.2.2.2.1, (v3_putW_fields e2).2.2.2.2.1,
            (v3_putW_fields e1).2.2.2.2.1]
        exact hfl
      have hco := v3_coalesce_frame hb hfl3 e4
      have hbrk : (16:Int) ∣ a3.brk := by
        rw [(v3_putW_fields e3).2.1, (v3_putW_fields e2).2.1, (v3_putW_fields e1).2.1]
        dsimp only
        simp only [WORD]
        push_cast
        omega
      refine ⟨?_, ?_, ?_⟩
      · rw [← hst, hco.2.1]
        exact hbrk
      · intro x hx
        rw [← hst] at hx
        exact hco.2.2 x hx
      · intro bp2 hbp2
        rw [← hr] at hbp2
        injection hbp2 with hbp2
        have := hco.1
        omega

lemma v3_find_fit_mem {st : V3.Heap} {a : Nat} :
    ∀ (l : List Int) (r : Int), V3.find_fit st a l = some (some r) → r ∈ l := by
  intro l
  induction l with
  | nil =>
      intro r h
      rw [V3.find_fit] at h
      simp at h
  | cons bp rest ih =>
      intro r h
      rw [V3.find_fit] at h
      simp only [Option.bind_eq_bind, Option.bind_eq_some] at h
      obtain ⟨wh, -, h⟩ := h
      split at h
      · simp only [Option.pure_def, Option.some.injEq] at h
        rw [← h]
        exact List.mem_cons_self _ _
      · exact List.mem_cons_of_mem _ (ih r h)

lemma v3_mminit_frame {st : V3.Heap} {st6 : V3.Heap}
    (hb : (16:Int) ∣ st.brk) (h : V3.mminit st = some st6) :
    (16:Int) ∣ st6.brk ∧ ∀ x ∈ st6.freeList, (16:Int) ∣ x := by
  rw [V3.mminit] at h
  split at h
  · exact Option.noConfusion h
  · simp only [Option.bind_eq_bind, Option.bind_eq_some] at h
    obtain ⟨a1, e1, a2, e2, a3, e3, a4, e4, h⟩ := h
    split at h
    · exact Option.noConfusion h
    · exact Option.noConfusion h
    · rename_i bp s6 heq
      injection h with h6
      have hb5 : (16:Int) ∣ ({ a4 with heapListP := st.brk + 16, init := true } : V3.Heap).brk := by
        show (16:Int) ∣ a4.brk
        rw [(v3_putW_fields e4).2.1, (v3_putW_fields e3).2.1,
            (v3_putW_fields e2).2.1, (v3_putW_fields e1).2.1]
        dsimp only
        omega
      have hfl5 : ∀ x ∈ ({ a4 with heapListP := st.brk + 16, init := true } : V3.Heap).freeList,
          (16:Int) ∣ x := by
        show ∀ x ∈ a4.freeList, (16:Int) ∣ x
        rw [(v3_putW_fields e4).2.2.2.2.1, (v3_putW_fields e3).2.2.2.2.1,
            (v3_putW_fields e2).2.2.2.2.1, (v3_putW_fields e1).2.2.2.2.1]
        intro x hx
        cases hx
      have hfr := v3_extend_heap_frame hb5 hfl5 heq
      exact ⟨by rw [← h6]; exact hfr.1, by rw [← h6]; exact hfr.2.1⟩

lemma v3_malloc_with_bp {st : V3.Heap} {a : Nat} {bp : Int} {st1 : V3.Heap}
    (hb : (16:Int) ∣ st.brk) (hfl : ∀ x ∈ st.freeList, (16:Int) ∣ x)
    (h : V3.malloc_with st a = some (some bp, st1)) : (16:Int) ∣ bp := by
  rw [V3.malloc_with] at h
  split at h
  · exact Option.noConfusion h
  · rename_i bp' hff
    simp only [Option.map_eq_some'] at h
    obtain ⟨s, -, h⟩ := h
    simp only [Prod.mk.injEq] at h
    obtain ⟨h1, -⟩ := h
    injection h1 with h1
    rw [← h1]
    exact hfl bp' (v3_find_fit_mem _ _ hff)
  · simp only [] at h
    split at h
    · exact Option.noConfusion h
    · simp at h
    · rename_i bp' stx heq
      simp only [Option.map_eq_some'] at h
      obtain ⟨s, -, h⟩ := h
      simp only [Prod.mk.injEq] at h
      obtain ⟨h1, -⟩ := h
      injection h1 with h1
      rw [← h1]
      exact (v3_extend_heap_frame hb hfl heq).2.2 bp' rfl

lemma v3_my_malloc_bp {st : V3.Heap} {size : Nat} {bp : Int} {st1 : V3.Heap}
    (hb : (16:Int) ∣ st.brk) (hfl : ∀ x ∈ st.freeList, (16:Int) ∣ x)
    (h : V3.my_malloc st size = some (some bp, st1)) : (16:Int) ∣ bp := by
  rw [V3.my_malloc] at h
  cases hinit : st.init with
  | true =>
      rw [hinit] at h
      rw [if_pos rfl] at h
      split at h
      · simp at h
      · rename_i st0 heq
        injection heq with heq
        subst heq
        split at h
        · simp at h
        · exact v3_malloc_with_bp hb hfl h
  | false =>
      rw [hinit] at h
      rw [if_neg (by simp)] at h
      split at h
      · exact Option.noConfusion h
      · rename_i st0 hmm
        have hfr := v3_mminit_frame hb hmm
        split at h
        · simp at h
        · exact v3_malloc_with_bp hfr.1 hfr.2 h

lemma v3_my_realloc_ret_ptr {st : V3.Heap} {ptr : Int} {size : Nat} {r : Int} {st1 : V3.Heap}
    (h : V3.my_realloc st ptr size = some (some r, st1)) :
    r = ptr ∨ ∃ st2, V3.my_malloc st size = some (some r, st2) := by
  rw [V3.my_realloc] at h
  split at h
  · simp only [Option.map_eq_some'] at h
    obtain ⟨s, -, h⟩ := h
    simp at h
  · split at h
    · exact Or.inr ⟨st1, h⟩
    · rw [Option.bind_eq_bind, Option.bind_eq_some] at h
      obtain ⟨wh, -, h⟩ := h
      simp only [] at h
      by_cases hc1 : V3.asizeOf size ≤ getSizeW wh
      · rw [if_pos hc1] at h
        by_cases hc2 : 2 * DWORD ≤ getSizeW wh - V3.asizeOf size
        · rw [if_pos hc2] at h
          simp only [Option.bind_eq_bind, Option.bind_eq_some] at h
          obtain ⟨a1, -, a2, -, a3, -, a4, -, a5, -, a6, -, h⟩ := h
          simp only [Option.bind_eq_bind, Option.bind_eq_some, Option.pure_def,
            Option.some.injEq, Prod.mk.injEq] at h
          obtain ⟨a7, -, ⟨c, s5⟩, -, h1, -⟩ := h
          exact Or.inl h1.symm
        · rw [if_neg hc2] at h
          simp only [Option.pure_def, Option.some.injEq, Prod.mk.injEq] at h
          exact Or.inl h.1.symm
      · rw [if_neg hc1] at h
        rw [Option.bind_eq_bind, Option.bind_eq_some] at h
        obtain ⟨wnh, -, h⟩ := h
        by_cases hc3 : getAllocW wnh = 0 ∧ V3.asizeOf size ≤ getSizeW wh + getSizeW wnh
        · rw [if_pos hc3] at h
          by_cases hc4 : 2 * DWORD ≤ getSizeW wh + getSizeW wnh - V3.asizeOf size
          · rw [if_pos hc4] at h
            simp only [Option.bind_eq_bind, Option.bind_eq_some] at h
            obtain ⟨a1, -, a2, -, a3, -, a4, -, a5, -, h⟩ := h
            simp only [Option.bind_eq_bind, Option.bind_eq_some, Option.pure_def,
              Option.some.injEq, Prod.mk.injEq] at h
            obtain ⟨a6, -, a7, -, h1, -⟩ := h
            exact Or.inl h1.symm
          · rw [if_neg hc4] at h
            simp only [Option.bind_eq_bind, Option.bind_eq_some] at h
            obtain ⟨a1, -, a2, -, a3, -, h⟩ := h
            simp only [Option.pure_def, Option.some.injEq, Prod.mk.injEq] at h
            exact Or.inl h.1.symm
        · rw [if_neg hc3] at h
          split at h
          · exact Option.noConfusion h
          · simp at h
          · rename_i newp stm heq
            split at h
            · exact Option.noConfusion h
            · simp only [Option.some.injEq, Prod.mk.injEq] at h
              obtain ⟨h1, -⟩ := h
              rw [← h1]
              exact Or.inr ⟨stm, heq⟩

lemma v4_buddy_alloc_offset {st : V4.State} {req block : Nat} {st1 : V4.State}
    (h : V4.buddy_alloc st req = some (some block, st1)) : block % V4.PAGE_SIZE = 0 := by
  rw [V4.buddy_alloc] at h
  split at h
  · simp at h
  · split at h
    · exact Option.noConfusion h
    · split at h
      · exact Option.noConfusion h
      · rename_i st2 hlr
        simp only [Option.some.injEq, Prod.mk.injEq] at h
        obtain ⟨h1, -⟩ := h
        rw [V4.list_remove] at hlr
        split at hlr
        · exact Option.noConfusion hlr
        · rename_i m hma
          rw [V4.metaAt] at hma
          split at hma
          · rename_i hc
            exact h1 ▸ hc
          · exact Option.noConfusion hma

lemma v5_slab_create_page {c : V5.Cache} {b : V4.State} {slab : V5.Slab} {b1 : V4.State}
    (h : V5.slab_create c b = some (some slab, b1)) : slab.pageStart % V4.PAGE_SIZE = 0 := by
  rw [V5.slab_create] at h
  split at h
  · exact Option.noConfusion h
  · simp at h
  · rename_i page bst1 heq
    simp only [Option.some.injEq, Prod.mk.injEq] at h
    obtain ⟨h1, -⟩ := h
    rw [← h1]
    exact v4_buddy_alloc_offset heq

lemma v5_alloc_in_aligned {cache : V5.Cache} {bst : V4.State} {slab : V5.Slab}
    {rest : List V5.Slab} {off : Nat} {k : V5.KState}
    (h16 : 16 ∣ cache.objSize) (hps : 16 ∣ slab.pageStart)
    (h : V5.alloc_in cache bst slab rest = (some off, k)) : 16 ∣ off := by
  rw [V5.alloc_in] at h
  split at h
  · simp at h
  · rename_i slot hfs
    simp only [] at h
    split at h <;>
    · simp only [Prod.mk.injEq] at h
      obtain ⟨h1, -⟩ := h
      injection h1 with h1
      rw [← h1]
      exact Nat.dvd_add hps (Dvd.dvd.mul_left h16 slot)

lemma v5_kmem_alloc_aligned {st : V5.KState} {off : Nat} {st1 : V5.KState}
    (h16 : 16 ∣ st.cache.objSize)
    (hpart : ∀ s ∈ st.cache.partialSlabs, 16 ∣ s.pageStart)
    (hfree : ∀ s ∈ st.cache.freeSlabs, 16 ∣ s.pageStart)
    (h : V5.kmem_cache_alloc st = some (some off, st1)) : 16 ∣ off := by
  rw [V5.kmem_cache_alloc] at h
  split at h
  · rename_i slab rest heq
    injection h with h2
    exact v5_alloc_in_aligned h16 (hpart slab (by rw [heq]; exact List.mem_cons_self _ _)) h2
  · split at h
    · rename_i hp slab frest heq
      injection h with h2
      refine v5_alloc_in_aligned ?_ ?_ h2
      · exact h16
      · exact hfree slab (by rw [heq]; exact List.mem_cons_self _ _)
    · split at h
      · exact Option.noConfusion h
      · simp at h
      · rename_i slab bst1 heq
        injection h with h2
        have hp4 := v5_slab_create_page heq
        have hp4' : V4.PAGE_SIZE = 4096 := rfl
        rw [hp4'] at hp4
        refine v5_alloc_in_aligned ?_ ?_ h2
        · exact h16
        · omega

/-! ### Claim C2 — alignment of returned payload pointers -/

/-- The buddy state after one order-0 allocation from a fresh arena. -/
def c2b1 : V4.State :=
  match V4.buddy_alloc V4.buddy_init 0 with
  | some (_, s) => s
  | none => V4.buddy_init

/-- The V2 heap after `my_malloc(8)` from an uninitialized address space. -/
def c2v2 : V2.Heap :=
  match V2.my_malloc fresh2 8 with
  | some (_, s) => s
  | none => fresh2

/-- The V3 heap after `my_malloc(8)` from an uninitialized address space. -/
def c2v3 : V3.Heap :=
  match V3.my_malloc fresh3 8 with
  | some (_, s) => s
  | none => fresh3

/-- The V3 heap after shrinking block 32 in place with `my_realloc(32, 8)`. -/
def c2r1 : V3.Heap :=
  match V3.my_realloc v3heapA 32 8 with
  | some (_, s) => s
  | none => v3heapA

/-- The 64-byte cache after one `kmem_cache_alloc`. -/
def c2k1 : V5.KState :=
  match V5.kmem_cache_alloc V5.cache64 with
  | some (_, s) => s
  | none => V5.cache64

/-- Claim C2 (amended): the alignment contract holds for V2 `my_malloc`,
V3 `my_malloc`/`my_realloc`, V4 `buddy_alloc` and V5 `kmem_cache_alloc`
under the invariants the code maintains — for V2/V3, a 16-byte aligned
program break (and, for V2, heap list base; for V3, free-list entries and
the reallocated pointer); for V4, unconditionally (every block the
allocator hands out sits at a page-aligned offset); for V5, an object size
that is a multiple of 16 and page-aligned slabs.  V1 and V5 with other
object sizes break the contract (see the counterexample). -/
theorem c2_alignment :
    (∀ (st : V4.State) (req block : Nat) (st1 : V4.State),
        V4.buddy_alloc st req = some (some block, st1) → block % 16 = 0)
    ∧ (∀ (st : V2.Heap) (size : Nat) (bp : Int) (st1 : V2.Heap),
        (16:Int) ∣ st.heapListP → (16:Int) ∣ st.brk →
        V2.my_malloc st size = some (some bp, st1) → (16:Int) ∣ bp)
    ∧ (∀ (st : V3.Heap) (size : Nat) (bp : Int) (st1 : V3.Heap),
        (16:Int) ∣ st.brk → (∀ x ∈ st.freeList, (16:Int) ∣ x) →
        V3.my_malloc st size = some (some bp, st1) → (16:Int) ∣ bp)
    ∧ (∀ (st : V3.Heap) (ptr : Int) (size : Nat) (r : Int) (st1 : V3.Heap),
        (16:Int) ∣ st.brk → (∀ x ∈ st.freeList, (16:Int) ∣ x) → (16:Int) ∣ ptr →
        V3.my_realloc st ptr size = some (some r, st1) → (16:Int) ∣ r)
    ∧ (∀ (st : V5.KState) (off : Nat) (st1 : V5.KState),
        16 ∣ st.cache.objSize →
        (∀ s ∈ st.cache.partialSlabs, 16 ∣ s.pageStart) →
        (∀ s ∈ st.cache.freeSlabs, 16 ∣ s.pageStart) →
        V5.kmem_cache_alloc st = some (some off, st1) → 16 ∣ off) := by
  refine ⟨?_, ?_, ?_, ?_, ?_⟩
  · intro st req block st1 h
    have hoff := v4_buddy_alloc_offset h
    have hps : V4.PAGE_SIZE = 4096 := rfl
    rw [hps] at hoff
    omega
  · intro st size bp st1 hh hb h
    exact v2_my_malloc_bp hh hb h
  · intro st size bp st1 hb hfl h
    exact v3_my_malloc_bp hb hfl h
  · intro st ptr size r st1 hb hfl hp h
    rcases v3_my_realloc_ret_ptr h with hre | ⟨st2, hm⟩
    · rw [hre]
      exact hp
    · exact v3_my_malloc_bp hb hfl hm
  · intro st off st1 h16 hpart hfree h
    exact v5_kmem_alloc_aligned h16 hpart hfree h

/-- Claim C2, counterexample: V1 `malloc(8)` on an empty arena with break 0
returns the payload pointer `0 + sizeof(header_t) = 24`, which is not
16-byte aligned (the 24-byte header and the unrounded request sizes defeat
the contract); likewise, in V5 a cache of 24-byte objects returns object
pointer `page_start + 1 * 24 = 24` for its second allocation. -/
theorem c2_alignment_counterexample :
    (V1.malloc ⟨[], 0, 10000⟩ 8).1 = some 24 ∧ (24:Int) % 16 ≠ 0
    ∧ V5.kmem_cache_alloc c2k24 = some (some 24, ⟨⟨[⟨0, 30, 3⟩], [], [], 24, 32, "object24"⟩, c2k24.buddy⟩)
    ∧ (24:Nat) % 16 ≠ 0 := by
  refine ⟨rfl, by decide, ?_, by decide⟩
  rfl

/-- Witness for C2: each conjunct applied at a concrete state — a fresh
buddy arena (block 0), fresh V2/V3 heaps (`my_malloc(8)` returns 32), the
V3 heap `v3heapA` (`my_realloc(32, 8)` returns 32), and the 64-byte cache
(object 0). -/
theorem c2_alignment_witness :
    (0 : Nat) % 16 = 0 ∧ (16:Int) ∣ (32:Int) ∧ (16:Int) ∣ (32:Int)
    ∧ (16:Int) ∣ (32:Int) ∧ (16:Nat) ∣ (0:Nat) :=
  ⟨c2_alignment.1 V4.buddy_init 0 0 c2b1 rfl,
   c2_alignment.2.1 fresh2 8 32 c2v2 ⟨0, rfl⟩ ⟨0, rfl⟩ rfl,
   c2_alignment.2.2.1 fresh3 8 32 c2v3 ⟨0, rfl⟩ (by intro x hx; cases hx) rfl,
   c2_alignment.2.2.2.1 v3heapA 32 8 32 c2r1 ⟨258, rfl⟩
     (by intro x hx
         rw [show v3heapA.freeList = [112] from rfl] at hx
         rw [List.mem_singleton.1 hx]
         exact ⟨7, rfl⟩)
     ⟨2, rfl⟩ rfl,
   c2_alignment.2.2.2.2 V5.cache64 0 c2k1 ⟨4, rfl⟩
     (by intro s hs; cases hs) (by intro s hs; cases hs) rfl⟩
